import Mathlib

/-!
Verification of the FITS-header adjuster `modify-fits-header.py` from the
`photometry_tools` repository.

The script opens each FITS file, applies a fixed sequence of header edits
driven by command-line options, and flushes the result.  We embed the
header data model (an ordered keyword/value list), the option record, and
every edit function of the script, together with an exact-rational model of
the `astropy.time` arithmetic the script relies on (ISO-8601 parsing,
timestamp shifting by a timezone offset and half an exposure, ISO output
with millisecond precision, and Julian Date conversion).

Conventions of the embedding:
* header values are strings or exact rationals (`Value`);
* an instant is an exact rational number of SI seconds counted from the
  Julian Date epoch (JD 0), so the Julian Date of an instant is the
  instant divided by 86400;
* every `print` of the script is recorded as a structured `Msg`;
* an uncaught Python exception other than `KeyError` (a `ValueError` from
  `Time`/`float`, or an `AttributeError` from `.split` on a non-string)
  aborts the run; functions that can abort return `Option`.
-/

/-- A FITS header card value: a string or a numeric value. -/
inductive Value
  | str (s : String)
  | num (q : ℚ)
deriving DecidableEq, Repr

/-- A FITS primary header: an ordered list of keyword/value cards. -/
abbrev Header := List (String × Value)

/-- Lookup of a keyword (the value of the first matching card),
modelling `header[key]` of `astropy.io.fits`. -/
def hget : Header → String → Option Value
  | [], _ => none
  | (k, v) :: t, key => if k = key then some v else hget t key

/-- Keyword membership test, modelling `key in header`. -/
def hmem (h : Header) (key : String) : Bool :=
  (hget h key).isSome

/-- Assignment `header[key] = v`: overwrite the first matching card in
place, or append a new card. -/
def hset : Header → String → Value → Header
  | [], key, v => [(key, v)]
  | (k, w) :: t, key, v =>
    if k = key then (k, v) :: t else (k, w) :: hset t key v

/-- Deletion `del header[key]`: remove every card with the keyword
(this is what `astropy.io.fits.Header.__delitem__` does for a string key). -/
def hdel : Header → String → Header
  | [], _ => []
  | (k, w) :: t, key =>
    if k = key then hdel t key else (k, w) :: hdel t key

/-- The option record built by `get_opts_and_args`.  String-typed numeric
options (`--exptime`, `--tzoffset`) are modelled by their parsed rational
values; both default to `0.0` in the script. -/
structure Options where
  airmass : Option String
  calstat : Option String
  iris_dateobs : Option String
  dec : Option String
  exp_time : ℚ
  filter : Option String
  use_midpoint_for_dateobs : Bool
  adjust_time : Bool
  object : Option String
  ra : Option String
  tz_offset : ℚ
  verbose : Bool
deriving Repr

/-- One diagnostic or verbose message printed by the script, in structured
form (one constructor per `print` statement). -/
inductive Msg
  | err (e : String)
  | notYyyyMmDd (v : String)
  | irisInitial (arg : String) (old : Option Value)
  | irisAdjusted (arg : String) (v : String)
  | startTime (arg : String) (s : String)
  | usingMidpoint (arg : String)
  | adjustedOut (arg : String) (s : String)
  | midpointOut (arg : String) (s : String)
  | jdOut (arg : String) (q : ℚ)
  | noDateObs (arg : String)
  | dateObsFormatNotDdMmYyyy (arg : String)
  | setObject (arg : String) (v : String)
  | filterChanged (arg : String) (old : Option String) (new : String)
  | setAirmass (arg : String) (v : String)
  | calstatInvalid (arg : String)
  | setCalstat (arg : String) (v : String)
  | invalidRA (arg : String) (v : String)
  | setRA (arg : String) (v : String)
  | invalidDEC (arg : String) (v : String)
  | setDEC (arg : String) (v : String)
deriving DecidableEq, Repr

/-! ### Character and token helpers (the `\s`, `\d` classes of `re`) -/

/-- The Python regex class `\s`. -/
def isSpaceCh (c : Char) : Bool :=
  c = ' ' || c = '\t' || c = '\n' || c = '\r' || c = '\x0b' || c = '\x0c'

/-- Drop a leading run of `\s` characters (`\s*` at the start of a match). -/
def dropSpaces : List Char → List Char
  | [] => []
  | c :: t => if isSpaceCh c then dropSpaces t else c :: t

/-- Split a leading run of `\d` characters from the rest (`\d+` matching). -/
def grabDigits : List Char → List Char × List Char
  | [] => ([], [])
  | c :: t =>
    if c.isDigit then
      let p := grabDigits t
      (c :: p.1, p.2)
    else ([], c :: t)

/-- Python `str.split(sep)` for a one-character separator. -/
def pySplit (sep : Char) : List Char → List (List Char)
  | [] => [[]]
  | c :: t =>
    if c = sep then [] :: pySplit sep t
    else
      match pySplit sep t with
      | g :: gs => (c :: g) :: gs
      | [] => [[c]]

/-- Python `str.zfill`: left-pad with `'0'` to the requested width. -/
def zfillL (l : List Char) (n : Nat) : List Char :=
  List.replicate (n - l.length) '0' ++ l

/-- Numeric value of a digit string. -/
def natVal (ds : List Char) : ℕ :=
  ds.foldl (fun a c => a * 10 + (c.toNat - 48)) 0

/-! ### The regex of `optionally_set_iris_dateobs` -/

/-- Matcher for `^\s*(\d{4})\-(\d{1,2})\-(\d{1,2})\s*$`, returning the
three captured digit groups (year, month, day). -/
def parseYMD (cs0 : List Char) : Option (List Char × List Char × List Char) :=
  let cs1 := dropSpaces cs0
  let p1 := grabDigits cs1
  if p1.1.length = 4 then
    match p1.2 with
    | '-' :: r2 =>
      let p2 := grabDigits r2
      if 1 ≤ p2.1.length ∧ p2.1.length ≤ 2 then
        match p2.2 with
        | '-' :: r4 =>
          let p3 := grabDigits r4
          if (1 ≤ p3.1.length ∧ p3.1.length ≤ 2) ∧ p3.2.all isSpaceCh then
            some (p1.1, p2.1, p3.1)
          else none
        | _ => none
      else none
    | _ => none
  else none

/-- The `DD/MM/YYYY` string built by `optionally_set_iris_dateobs` from the
captured groups: day and month zero-filled to 2, year to 4. -/
def irisFmtL (y m d : List Char) : List Char :=
  zfillL d 2 ++ '/' :: (zfillL m 2 ++ '/' :: zfillL y 4)

/-! ### The regex of `get_hd_m_s_str` -/

/-- Matcher for `^\s*(({0})?\d+):(\d+):(\d+(\.\d+)?)\s*$` where the prefix
`{0}` is `\-|\+` when `allowSign` is true (the `set_dec` call) and empty
when it is false (the `set_ra` call).  Returns the reformatted
space-separated `"{group1} {group3} {group4}"` output. -/
def parseHMSL (allowSign : Bool) (cs0 : List Char) : Option (List Char) :=
  let cs1 := dropSpaces cs0
  let p0 :=
    if allowSign then
      match cs1 with
      | c :: t => if c = '-' || c = '+' then ([c], t) else (([] : List Char), cs1)
      | [] => (([] : List Char), cs1)
    else (([] : List Char), cs1)
  let ph := grabDigits p0.2
  if ph.1 = [] then none
  else
    match ph.2 with
    | ':' :: r2 =>
      let pm := grabDigits r2
      if pm.1 = [] then none
      else
        match pm.2 with
        | ':' :: r4 =>
          let ps := grabDigits r4
          if ps.1 = [] then none
          else
            let q :=
              match ps.2 with
              | '.' :: r6 =>
                let pf := grabDigits r6
                if pf.1 = [] then (ps.1, ps.2) else (ps.1 ++ '.' :: pf.1, pf.2)
              | _ => (ps.1, ps.2)
            if q.2.all isSpaceCh then
              some (p0.1 ++ ph.1 ++ ' ' :: (pm.1 ++ ' ' :: q.1))
            else none
        | _ => none
    | _ => none

/-- `get_hd_m_s_str` of the script.  `allowSign = true` corresponds to the
default `prefix="\-|\+"`, `allowSign = false` to the `prefix=""` call. -/
def get_hd_m_s_str (input : String) (allowSign : Bool := true) : Option String :=
  (parseHMSL allowSign input.data).map String.mk

/-! ### Exact model of the `astropy.time` arithmetic used by `set_times` -/

/-- Julian Day Number (the JD at noon) of a proleptic Gregorian calendar
date, by the standard formula with nonnegative intermediate quantities. -/
def jdnOfYmd (y m d : ℤ) : ℤ :=
  let a := (14 - m) / 12
  let y2 := y + 4800 - a
  let m2 := m + 12 * a - 3
  d + (153 * m2 + 2) / 5 + 365 * y2 + y2 / 4 - y2 / 100 + y2 / 400 - 32045

/-- Inverse of `jdnOfYmd`: the Gregorian calendar date of a Julian Day
Number, as `(year, month, day)`. -/
def ymdOfJdn (j : ℤ) : ℤ × ℤ × ℤ :=
  let a := j + 32044
  let b := (4 * a + 3) / 146097
  let c := a - 146097 * b / 4
  let d := (4 * c + 3) / 1461
  let e := c - 1461 * d / 4
  let m := (5 * e + 2) / 153
  (100 * b + d - 4800 + m / 10, m + 3 - 12 * (m / 10), e - (153 * m + 2) / 5 + 1)

/-! ### Kernel-computable rational arithmetic

`Rat.add`, `Rat.mul` and `Nat.gcd` are irreducible, so terms built from
the standard `ℚ` operations cannot be evaluated inside the kernel by
`decide`/`rfl`.  The time model therefore computes with the following
operations, which build the same normalized `ℚ` values through the `Rat`
constructor with a fuel-based Euclidean gcd; each operation is proved
equal to the corresponding standard one in the theorems section below. -/

/-- Fuel-based Euclidean gcd. -/
def gcdF : ℕ → ℕ → ℕ → ℕ
  | 0, _, n => n
  | fuel + 1, m, n => if m = 0 then n else gcdF fuel (n % m) m

/-- Kernel-computable gcd. -/
def gcdNat (m n : ℕ) : ℕ := gcdF (m + 1) m n

/-- Kernel-computable construction of the reduced rational `n / d`. -/
def qmk (n : ℤ) (d : ℕ) : ℚ :=
  if hd : d = 0 then 0
  else
    { num := n / (gcdNat n.natAbs d : ℤ)
      den := d / gcdNat n.natAbs d
      den_nz := by
        have key : ∀ fuel m k, m < fuel → gcdF fuel m k = Nat.gcd m k := by
          intro fuel
          induction fuel with
          | zero => intro m k h; exact absurd h (Nat.not_lt_zero m)
          | succ f ih =>
            intro m k h
            by_cases hm : m = 0
            · subst hm; simp [gcdF]
            · rw [gcdF, if_neg hm, ih (k % m) m
                (lt_of_lt_of_le (Nat.mod_lt k (Nat.pos_of_ne_zero hm)) (Nat.lt_succ_iff.mp h))]
              exact (Nat.gcd_rec m k).symm
        rw [show gcdNat n.natAbs d = Nat.gcd n.natAbs d from key _ _ _ (Nat.lt_succ_self _)]
        have hdp := Nat.pos_of_ne_zero hd
        have hgp := Nat.gcd_pos_of_pos_right n.natAbs hdp
        exact (Nat.div_pos (Nat.le_of_dvd hdp (Nat.gcd_dvd_right _ _)) hgp).ne'
      reduced := by
        have key : ∀ fuel m k, m < fuel → gcdF fuel m k = Nat.gcd m k := by
          intro fuel
          induction fuel with
          | zero => intro m k h; exact absurd h (Nat.not_lt_zero m)
          | succ f ih =>
            intro m k h
            by_cases hm : m = 0
            · subst hm; simp [gcdF]
            · rw [gcdF, if_neg hm, ih (k % m) m
                (lt_of_lt_of_le (Nat.mod_lt k (Nat.pos_of_ne_zero hm)) (Nat.lt_succ_iff.mp h))]
              exact (Nat.gcd_rec m k).symm
        rw [show gcdNat n.natAbs d = Nat.gcd n.natAbs d from key _ _ _ (Nat.lt_succ_self _)]
        have hdp := Nat.pos_of_ne_zero hd
        have hgp := Nat.gcd_pos_of_pos_right n.natAbs hdp
        have hdvd : (↑(Nat.gcd n.natAbs d) : ℤ) ∣ n :=
          Int.ofNat_dvd_left.2 (Nat.gcd_dvd_left _ _)
        rw [Int.natAbs_ediv _ _ hdvd, Int.natAbs_ofNat]
        exact Nat.coprime_div_gcd_div_gcd hgp }

/-- Kernel-computable embedding of an integer into `ℚ`. -/
def qOfInt (z : ℤ) : ℚ :=
  { num := z, den := 1, den_nz := one_ne_zero, reduced := Nat.coprime_one_right _ }

/-- Kernel-computable embedding of a natural number into `ℚ`. -/
def qOfNat (n : ℕ) : ℚ := qOfInt (Int.ofNat n)

/-- Kernel-computable addition on `ℚ`. -/
def qadd (a b : ℚ) : ℚ := qmk (a.num * b.den + b.num * a.den) (a.den * b.den)

/-- Kernel-computable multiplication on `ℚ`. -/
def qmul (a b : ℚ) : ℚ := qmk (a.num * b.num) (a.den * b.den)

/-- Kernel-computable division by a natural number on `ℚ`. -/
def qdivNat (a : ℚ) (k : ℕ) : ℚ := qmk a.num (a.den * k)

/-- The instant (seconds from the JD 0 epoch) of a calendar date and time
of day: `(JDN - 1/2) * 86400 + hh*3600 + mi*60 + s`, with the integer part
collected before the conversion to `ℚ`. -/
def timeOfYmdHms (y mo dy hh mi : ℤ) (s : ℚ) : ℚ :=
  qadd (qOfInt (jdnOfYmd y mo dy * 86400 - 43200 + hh * 3600 + mi * 60)) s

/-- The Julian Date of an instant, modelling `Time.jd`. -/
def jdOf (t : ℚ) : ℚ := qdivNat t 86400

/-- Parser for `Time(s, scale='utc', format='isot')`: accepts
`YYYY-MM-DD[THH:MM[:SS[.fff]]]` with 1-2 digit month, day, hour, minute and
second fields, validating the calendar ranges as astropy does. -/
def parseIsotL (cs : List Char) : Option ℚ :=
  let py := grabDigits cs
  if py.1.length = 4 then
    match py.2 with
    | '-' :: r2 =>
      let pmo := grabDigits r2
      if (1 ≤ pmo.1.length ∧ pmo.1.length ≤ 2) ∧ (1 ≤ natVal pmo.1 ∧ natVal pmo.1 ≤ 12) then
        match pmo.2 with
        | '-' :: r4 =>
          let pdy := grabDigits r4
          if (1 ≤ pdy.1.length ∧ pdy.1.length ≤ 2) ∧ (1 ≤ natVal pdy.1 ∧ natVal pdy.1 ≤ 31) then
            match pdy.2 with
            | [] => some (timeOfYmdHms (Int.ofNat (natVal py.1)) (Int.ofNat (natVal pmo.1))
                (Int.ofNat (natVal pdy.1)) 0 0 0)
            | 'T' :: r6 =>
              let phh := grabDigits r6
              if (1 ≤ phh.1.length ∧ phh.1.length ≤ 2) ∧ natVal phh.1 ≤ 23 then
                match phh.2 with
                | ':' :: r8 =>
                  let pmi := grabDigits r8
                  if (1 ≤ pmi.1.length ∧ pmi.1.length ≤ 2) ∧ natVal pmi.1 ≤ 59 then
                    match pmi.2 with
                    | [] =>
                      some (timeOfYmdHms (Int.ofNat (natVal py.1))
                        (Int.ofNat (natVal pmo.1)) (Int.ofNat (natVal pdy.1))
                        (Int.ofNat (natVal phh.1)) (Int.ofNat (natVal pmi.1)) 0)
                    | ':' :: r10 =>
                      let pss := grabDigits r10
                      if (1 ≤ pss.1.length ∧ pss.1.length ≤ 2) ∧ natVal pss.1 ≤ 59 then
                        match pss.2 with
                        | [] =>
                          some (timeOfYmdHms (Int.ofNat (natVal py.1))
                            (Int.ofNat (natVal pmo.1)) (Int.ofNat (natVal pdy.1))
                            (Int.ofNat (natVal phh.1)) (Int.ofNat (natVal pmi.1))
                            (qOfInt (Int.ofNat (natVal pss.1))))
                        | '.' :: r12 =>
                          let pfr := grabDigits r12
                          if pfr.1 ≠ [] ∧ pfr.2 = [] then
                            some (timeOfYmdHms (Int.ofNat (natVal py.1))
                              (Int.ofNat (natVal pmo.1)) (Int.ofNat (natVal pdy.1))
                              (Int.ofNat (natVal phh.1)) (Int.ofNat (natVal pmi.1))
                              (qadd (qOfInt (Int.ofNat (natVal pss.1)))
                                (qmk (Int.ofNat (natVal pfr.1))
                                  (10 ^ pfr.1.length))))
                          else none
                        | _ => none
                      else none
                    | _ => none
                  else none
                | _ => none
              else none
            | _ => none
          else none
        | _ => none
      else none
    | _ => none
  else none

/-- String form of `Time(...)` parsing. -/
def parseIsot (s : String) : Option ℚ :=
  parseIsotL s.data

/-- Decimal digits of a nonnegative integer, zero-filled to a width. -/
def padInt (n : ℤ) (w : Nat) : List Char :=
  zfillL (Nat.toDigits 10 n.toNat) w

/-- Formatter modelling `Time.isot` output with astropy's default
precision of 3: `YYYY-MM-DDTHH:MM:SS.fff`. -/
def fmtIsot (t : ℚ) : String :=
  let tms : ℤ := Rat.floor (qmul t (qOfNat 1000))
  let s : ℤ := tms + 43200000
  let jdn : ℤ := s / 86400000
  let rem : ℤ := s % 86400000
  let c := ymdOfJdn jdn
  ⟨padInt c.1 4 ++ '-' :: (padInt c.2.1 2 ++ '-' :: (padInt c.2.2 2 ++
    'T' :: (padInt (rem / 3600000) 2 ++ ':' :: (padInt (rem % 3600000 / 60000) 2 ++
    ':' :: (padInt (rem % 60000 / 1000) 2 ++ '.' :: padInt (rem % 1000) 3)))))⟩

/-! ### The edit functions of the script -/

/-- `optionally_set_iris_dateobs`: rewrite DATE-OBS from a `yyyy-mm-dd`
option value to the IRIS-style `DD/MM/YYYY` form, before other processing. -/
def optionally_set_iris_dateobs (h : Header) (o : Options) (arg : String) :
    Header × List Msg :=
  match o.iris_dateobs with
  | none => (h, [])
  | some v =>
    match parseYMD v.data with
    | some g =>
      let iris : String := ⟨irisFmtL g.1 g.2.1 g.2.2⟩
      let dateobs := hget h "DATE-OBS"
      (hset h "DATE-OBS" (.str iris),
       if o.verbose then [Msg.irisInitial arg dateobs, Msg.irisAdjusted arg iris] else [])
    | none => (h, [Msg.notYyyyMmDd v])

/-- `extract_full_dateobs`: extract the full observation timestamp.
Outer `none` models an uncaught Python exception (a non-string card where
a string is required).  Otherwise returns the extracted value (if any),
the possibly mutated header (UT-START deleted when it was consolidated
into DATE-OBS), and the printed diagnostics. -/
def extract_full_dateobs (h : Header) (arg : String) :
    Option (Option Value × Header × List Msg) :=
  if hmem h "UT-START" && hmem h "DATE-OBS" then
    match hget h "UT-START", hget h "DATE-OBS" with
    | some (.str ut), some (.str dob) =>
      match pySplit '/' dob.data with
      | [dd, mm, yyyy] =>
        some (some (.str ⟨yyyy ++ '-' :: (mm ++ '-' :: (dd ++ 'T' :: ut.data))⟩),
          hdel h "UT-START", [])
      | _ => some (none, h, [Msg.dateObsFormatNotDdMmYyyy arg])
    | _, _ => none
  else if hmem h "DATE-OBS" then
    some (hget h "DATE-OBS", h, [])
  else
    some (none, h, [Msg.noDateObs arg])

/-- `adjusted_t` of `set_times`: the extracted instant shifted by the
timezone offset, `initial_t + TimeDelta(tz_offset*60*60, format='sec')`. -/
def adjusted_t (o : Options) (t : ℚ) : ℚ :=
  qadd t (qmul (qmul o.tz_offset (qOfNat 60)) (qOfNat 60))

/-- The exposure-time resolution of `set_times`: the option value if
non-zero, else the header's EXPTIME if present, else 0.  `none` models the
uncaught `ValueError` of `float(...)` on a non-numeric EXPTIME card. -/
def resolve_exp_time (h : Header) (o : Options) : Option ℚ :=
  if o.exp_time ≠ 0 then some o.exp_time
  else
    match hget h "EXPTIME" with
    | some (.num q) => some q
    | some (.str _) => none
    | none => some 0

/-- `midpoint_t` of `set_times`: `adjusted_t + TimeDelta(exp_time/2, format='sec')`. -/
def midpoint_t (o : Options) (t e : ℚ) : ℚ :=
  qadd (adjusted_t o t) (qdivNat e 2)

/-- `set_times`: adjust the observation time (as DATE-OBS) and write the
exposure midpoint and its Julian Date.  `none` models an uncaught
exception (`ValueError` from `Time` on an unparseable timestamp or from
`float` on a bad EXPTIME, or the non-string-card conditions of
`extract_full_dateobs`). -/
def set_times (h : Header) (o : Options) (arg : String) :
    Option (Header × List Msg) :=
  if !o.adjust_time then some (h, [])
  else
    match extract_full_dateobs h arg with
    | none => none
    | some (fd, h1, ms0) =>
      match fd with
      | none => some (h1, ms0)
      | some (.num _) => none
      | some (.str s) =>
        match parseIsot s with
        | none => none
        | some t =>
          let ms1 := ms0 ++ (if o.verbose then [Msg.startTime arg (fmtIsot t)] else [])
          match resolve_exp_time h1 o with
          | none => none
          | some e =>
            let p :=
              if o.use_midpoint_for_dateobs then
                (fmtIsot (midpoint_t o t e), ms1 ++ [Msg.usingMidpoint arg])
              else (fmtIsot (adjusted_t o t), ms1)
            let h2 := hset h1 "DATE-OBS" (.str p.1)
            let ms2 := p.2 ++ (if o.verbose then [Msg.adjustedOut arg p.1] else [])
            let h3 := hset h2 "MIDPOINT" (.str (fmtIsot (midpoint_t o t e)))
            let ms3 := ms2 ++ (if o.verbose then [Msg.midpointOut arg (fmtIsot (midpoint_t o t e))] else [])
            let h4 := hset h3 "JD" (.num (jdOf (midpoint_t o t e)))
            let ms4 := ms3 ++ (if o.verbose then [Msg.jdOut arg (jdOf (midpoint_t o t e))] else [])
            some (h4, ms4)

/-- `set_object`: overwrite OBJECT verbatim when the option is given. -/
def set_object (h : Header) (o : Options) (arg : String) : Header × List Msg :=
  match o.object with
  | none => (h, [])
  | some v =>
    (hset h "OBJECT" (.str v), if o.verbose then [Msg.setObject arg v] else [])

/-- `set_filter`: as written in the script, the assignment and the verbose
report are both inside the FILTER-absent branch; when FILTER already has a
value the function only reads it and does nothing. -/
def set_filter (h : Header) (o : Options) (arg : String) : Header × List Msg :=
  match o.filter with
  | none => (h, [])
  | some f =>
    if hmem h "FILTER" then (h, [])
    else
      (hset h "FILTER" (.str f),
       if o.verbose then [Msg.filterChanged arg none f] else [])

/-- `set_airmass`: overwrite AIRMASS verbatim when the option is given. -/
def set_airmass (h : Header) (o : Options) (arg : String) : Header × List Msg :=
  match o.airmass with
  | none => (h, [])
  | some v =>
    (hset h "AIRMASS" (.str v), if o.verbose then [Msg.setAirmass arg v] else [])

/-- `set_calstat`: overwrite CALSTAT when the value is one of the five
enumerated strings, otherwise report and leave the header unchanged. -/
def set_calstat (h : Header) (o : Options) (arg : String) : Header × List Msg :=
  match o.calstat with
  | none => (h, [])
  | some v =>
    if v ∈ (["B", "BD", "BF", "DF", "BDF"] : List String) then
      (hset h "CALSTAT" (.str v), if o.verbose then [Msg.setCalstat arg v] else [])
    else (h, [Msg.calstatInvalid arg])

/-- `set_ra`: validate and reformat the RA option (no sign allowed:
`prefix=""`), write it to RA, or report an invalid value. -/
def set_ra (h : Header) (o : Options) (arg : String) : Header × List Msg :=
  match o.ra with
  | none => (h, [])
  | some v =>
    match get_hd_m_s_str v false with
    | some s => (hset h "RA" (.str s), if o.verbose then [Msg.setRA arg v] else [])
    | none => (h, [Msg.invalidRA arg v])

/-- `set_dec`: validate and reformat the Dec option (sign allowed: the
default `prefix="\-|\+"`), write it to DEC, or report an invalid value. -/
def set_dec (h : Header) (o : Options) (arg : String) : Header × List Msg :=
  match o.dec with
  | none => (h, [])
  | some v =>
    match get_hd_m_s_str v true with
    | some s => (hset h "DEC" (.str s), if o.verbose then [Msg.setDEC arg v] else [])
    | none => (h, [Msg.invalidDEC arg v])

/-- The edit steps of `main` after the two time-related steps. -/
def tailSteps (h : Header) (o : Options) (arg : String) : Header × List Msg :=
  let p3 := set_object h o arg
  let p4 := set_filter p3.1 o arg
  let p5 := set_airmass p4.1 o arg
  let p6 := set_calstat p5.1 o arg
  let p7 := set_ra p6.1 o arg
  let p8 := set_dec p7.1 o arg
  (p8.1, p3.2 ++ p4.2 ++ p5.2 ++ p6.2 ++ p7.2 ++ p8.2)

/-- The edit sequence of `main` after `optionally_set_iris_dateobs`. -/
def applyEditsRest (p : Header × List Msg) (o : Options) (arg : String) :
    Option (Header × List Msg) :=
  match set_times p.1 o arg with
  | none => none
  | some q =>
    let r := tailSteps q.1 o arg
    some (r.1, p.2 ++ q.2 ++ r.2)

/-- The full edit sequence `main` applies to one file's header, with the
final header (the state flushed by `fits.flush()`) and all printed
messages.  `none` models an uncaught exception aborting the run. -/
def applyEdits (h : Header) (o : Options) (arg : String) :
    Option (Header × List Msg) :=
  applyEditsRest (optionally_set_iris_dateobs h o arg) o arg

/-! ### The top-level exception handling of `main`

`main` wraps the whole edit sequence of one file in a single
`try ... except KeyError` and calls `fits.flush()` afterwards in either
case.  We model that control flow over an arbitrary list of edit steps,
each of which may either succeed or raise a `KeyError` (a field-not-found
condition of the underlying header API, `requireKey` below). -/

/-- Result of one edit step: success, or a raised `KeyError` carrying the
header state at the raise point. -/
inductive EditOutcome
  | ok (h : Header) (ms : List Msg)
  | keyErr (e : String) (h : Header) (ms : List Msg)
deriving DecidableEq, Repr

/-- An edit step of the `try` block of `main`. -/
abbrev EditStep := Header → EditOutcome

/-- Run the statements of the `try` block in order: a raised `KeyError`
aborts the remaining statements. -/
def runSteps : List EditStep → Header → List Msg → EditOutcome
  | [], h, ms => .ok h ms
  | s :: rest, h, ms =>
    match s h with
    | .ok h' ms' => runSteps rest h' (ms ++ ms')
    | .keyErr e h' ms' => .keyErr e h' (ms ++ ms')

/-- The per-file body of `main`: run the edit steps, catch a `KeyError`
at the top level and log it, then flush whatever header state was reached. -/
def processFile (steps : List EditStep) (h : Header) : Header × List Msg :=
  match runSteps steps h [] with
  | .ok h' ms => (h', ms)
  | .keyErr e h' ms => (h', ms ++ [Msg.err e])

/-- The raising header lookup of `astropy.io.fits`: `header[key]` raises
`KeyError` when the keyword is absent. -/
def requireKey (h : Header) (key : String) : Except String Value :=
  match hget h key with
  | some v => .ok v
  | none => .error ("Keyword " ++ key ++ " not found.")

/-- A minimal edit step that looks up a required keyword (raising
`KeyError` when it is absent) and otherwise changes nothing. -/
def readStep (key : String) : EditStep := fun h =>
  match requireKey h key with
  | .ok _ => .ok h []
  | .error e => .keyErr e h []

/-- A minimal edit step that writes one keyword. -/
def writeStep (key : String) (v : Value) : EditStep := fun h =>
  .ok (hset h key v) []

/-! ### Correctness of the rational arithmetic layer

Each kernel-computable operation agrees with the standard `ℚ` operation. -/

theorem gcdNat_eq (m n : ℕ) : gcdNat m n = Nat.gcd m n := by
  have key : ∀ fuel m k, m < fuel → gcdF fuel m k = Nat.gcd m k := by
    intro fuel
    induction fuel with
    | zero => intro m k h; exact absurd h (Nat.not_lt_zero m)
    | succ f ih =>
      intro m k h
      by_cases hm : m = 0
      · subst hm; simp [gcdF]
      · rw [gcdF, if_neg hm, ih (k % m) m
          (lt_of_lt_of_le (Nat.mod_lt k (Nat.pos_of_ne_zero hm)) (Nat.lt_succ_iff.mp h))]
        exact (Nat.gcd_rec m k).symm
  exact key _ _ _ (Nat.lt_succ_self _)

theorem qmk_eq_mkRat (n : ℤ) (d : ℕ) : qmk n d = mkRat n d := by
  unfold qmk
  by_cases hd : d = 0
  · simp [hd]
  · rw [dif_neg hd, Rat.mk_eq_divInt, Rat.mkRat_eq_divInt]
    rw [gcdNat_eq]
    have hdp := Nat.pos_of_ne_zero hd
    have hgp := Nat.gcd_pos_of_pos_right n.natAbs hdp
    have hgz : (Nat.gcd n.natAbs d : ℤ) ≠ 0 := by exact_mod_cast hgp.ne'
    have hdvdn : (↑(Nat.gcd n.natAbs d) : ℤ) ∣ n :=
      Int.ofNat_dvd_left.2 (Nat.gcd_dvd_left _ _)
    have hdvdd : Nat.gcd n.natAbs d ∣ d := Nat.gcd_dvd_right _ _
    calc Rat.divInt (n / ↑(Nat.gcd n.natAbs d)) ↑(d / Nat.gcd n.natAbs d)
        = Rat.divInt (n / ↑(Nat.gcd n.natAbs d) * ↑(Nat.gcd n.natAbs d))
            (↑(d / Nat.gcd n.natAbs d) * ↑(Nat.gcd n.natAbs d)) :=
          (Rat.divInt_mul_right hgz).symm
      _ = Rat.divInt n ↑d := by
          rw [Int.ediv_mul_cancel hdvdn, ← Nat.cast_mul, Nat.div_mul_cancel hdvdd]

theorem qOfInt_eq (z : ℤ) : qOfInt z = (z : ℚ) := rfl

theorem qOfNat_eq (n : ℕ) : qOfNat n = (n : ℚ) := rfl

theorem qadd_eq (a b : ℚ) : qadd a b = a + b := by
  rw [qadd, qmk_eq_mkRat, ← Rat.add_def']

theorem qmul_eq (a b : ℚ) : qmul a b = a * b := by
  rw [qmul, qmk_eq_mkRat, Rat.mul_def, Rat.normalize_eq_mkRat]

theorem qdivNat_eq (a : ℚ) (k : ℕ) : qdivNat a k = a / (k : ℚ) := by
  by_cases hk : k = 0
  · subst hk
    simp [qdivNat, qmk_eq_mkRat]
  · rw [qdivNat, qmk_eq_mkRat, Rat.mkRat_eq_divInt]
    have hkz : ((k : ℕ) : ℤ) ≠ 0 := by exact_mod_cast hk
    have hden : ((a.den : ℕ) : ℤ) ≠ 0 := by exact_mod_cast a.den_nz
    conv_rhs => rw [← Rat.num_divInt_den a]
    rw [show ((k : ℕ) : ℚ) = Rat.divInt (k : ℤ) 1 by rw [Rat.divInt_one]; push_cast; ring]
    rw [Rat.div_def, Rat.inv_divInt, Rat.divInt_mul_divInt _ _ hden hkz]
    rw [Int.mul_one, Nat.cast_mul]

theorem adjusted_t_eq (o : Options) (t : ℚ) :
    adjusted_t o t = t + o.tz_offset * 60 * 60 := by
  rw [adjusted_t, qadd_eq, qmul_eq, qmul_eq, qOfNat_eq]
  norm_num

theorem midpoint_t_eq (o : Options) (t e : ℚ) :
    midpoint_t o t e = adjusted_t o t + e / 2 := by
  rw [midpoint_t, qadd_eq, qdivNat_eq]
  norm_num

theorem jdOf_eq (t : ℚ) : jdOf t = t / 86400 := by
  rw [jdOf, qdivNat_eq]
  norm_num

/-! ### Basic facts about the header operations -/

theorem hget_hset_self (h : Header) (k : String) (v : Value) :
    hget (hset h k v) k = some v := by
  induction h with
  | nil => simp [hset, hget]
  | cons a t ih =>
    obtain ⟨ak, av⟩ := a
    by_cases hk : ak = k
    · simp [hset, hk, hget]
    · simp [hset, hk, hget, ih]

theorem hget_hset_ne (h : Header) (k : String) (v : Value) (k' : String)
    (hne : k' ≠ k) : hget (hset h k v) k' = hget h k' := by
  induction h with
  | nil => simp [hset, hget, Ne.symm hne]
  | cons a t ih =>
    obtain ⟨ak, av⟩ := a
    by_cases hk : ak = k
    · subst hk
      simp [hset, hget, Ne.symm hne]
    · by_cases hk' : ak = k'
      · simp [hset, hget, hk, hk', hne]
      · simp [hset, hget, hk, hk', ih]

theorem hget_hdel_self (h : Header) (k : String) :
    hget (hdel h k) k = none := by
  induction h with
  | nil => simp [hdel, hget]
  | cons a t ih =>
    obtain ⟨ak, av⟩ := a
    by_cases hk : ak = k
    · simp [hdel, hk, ih]
    · simp [hdel, hget, hk, ih]

theorem hget_hdel_ne (h : Header) (k k' : String) (hne : k' ≠ k) :
    hget (hdel h k) k' = hget h k' := by
  induction h with
  | nil => simp [hdel]
  | cons a t ih =>
    obtain ⟨ak, av⟩ := a
    by_cases hk : ak = k
    · subst hk
      simp [hdel, hget, Ne.symm hne, ih]
    · simp [hdel, hget, hk, ih]

/-! ### Basic facts about characters and the token helpers -/

theorem space_not_digit (c : Char) (hs : isSpaceCh c = true) :
    c.isDigit = false := by
  simp only [isSpaceCh, Bool.or_eq_true, decide_eq_true_eq] at hs
  rcases hs with ((((h | h) | h) | h) | h) | h <;> subst h <;> decide

theorem digit_not_space (c : Char) (hd : c.isDigit = true) :
    isSpaceCh c = false := by
  cases hs : isSpaceCh c
  · rfl
  · rw [space_not_digit c hs] at hd
    cases hd

theorem digit_ne (c : Char) (hd : c.isDigit = true) (d : Char)
    (hnd : d.isDigit = false) : c ≠ d := by
  intro h
  rw [h, hnd] at hd
  cases hd

theorem dropSpaces_append (w rest : List Char)
    (hw : ∀ c ∈ w, isSpaceCh c = true) :
    dropSpaces (w ++ rest) = dropSpaces rest := by
  induction w with
  | nil => rfl
  | cons c t ih =>
    simp only [List.cons_append, dropSpaces, hw c (List.mem_cons_self c t), if_true]
    exact ih fun x hx => hw x (List.mem_cons_of_mem c hx)

theorem dropSpaces_of_head (l : List Char)
    (hl : ∀ c ∈ l.head?, isSpaceCh c = false) : dropSpaces l = l := by
  cases l with
  | nil => rfl
  | cons c t =>
    simp only [dropSpaces, hl c (by simp)]
    rfl

theorem grabDigits_append (a rest : List Char)
    (ha : ∀ c ∈ a, c.isDigit = true)
    (hr : ∀ c ∈ rest.head?, c.isDigit = false) :
    grabDigits (a ++ rest) = (a, rest) := by
  induction a with
  | nil =>
    cases rest with
    | nil => rfl
    | cons c t =>
      simp only [List.nil_append, grabDigits, hr c (by simp)]
      rfl
  | cons c t ih =>
    simp only [List.cons_append, grabDigits, ha c (List.mem_cons_self c t), if_true,
      List.append_eq, ih fun x hx => ha x (List.mem_cons_of_mem c hx)]

theorem grabDigits_digits (l g r : List Char) (hgr : grabDigits l = (g, r)) :
    ∀ c ∈ g, c.isDigit = true := by
  induction l generalizing g r with
  | nil =>
    simp only [grabDigits] at hgr
    cases hgr
    simp
  | cons c t ih =>
    simp only [grabDigits] at hgr
    by_cases hc : c.isDigit
    · rw [if_pos hc] at hgr
      cases hgr
      intro x hx
      rcases List.mem_cons.mp hx with h | h
      · subst h; exact hc
      · exact ih _ _ rfl x h
    · rw [if_neg hc] at hgr
      cases hgr
      simp

theorem pySplit_sep_free (sep : Char) (c : List Char)
    (hc : ∀ x ∈ c, x ≠ sep) : pySplit sep c = [c] := by
  induction c with
  | nil => rfl
  | cons x t ih =>
    simp only [pySplit, hc x (List.mem_cons_self x t), if_false,
      ih fun y hy => hc y (List.mem_cons_of_mem x hy)]

theorem pySplit_append (sep : Char) (a rest : List Char)
    (ha : ∀ x ∈ a, x ≠ sep) :
    pySplit sep (a ++ sep :: rest) = a :: pySplit sep rest := by
  induction a with
  | nil => simp [pySplit]
  | cons x t ih =>
    simp only [List.cons_append, pySplit, ha x (List.mem_cons_self x t), if_false,
      List.append_eq, ih fun y hy => ha y (List.mem_cons_of_mem x hy)]

theorem zfillL_mem (l : List Char) (n : Nat) (x : Char)
    (hx : x ∈ zfillL l n) : x = '0' ∨ x ∈ l := by
  simp only [zfillL, List.mem_append, List.mem_replicate] at hx
  rcases hx with ⟨_, h⟩ | h
  · exact Or.inl h
  · exact Or.inr h

theorem zfillL_slash_free (l : List Char) (n : Nat)
    (hl : ∀ c ∈ l, c.isDigit = true) :
    ∀ x ∈ zfillL l n, x ≠ '/' := by
  intro x hx
  rcases zfillL_mem l n x hx with h | h
  · subst h; decide
  · exact digit_ne x (hl x h) '/' (by decide)

theorem irisFmt_split (y m d : List Char)
    (hy : ∀ c ∈ y, c.isDigit = true) (hm : ∀ c ∈ m, c.isDigit = true)
    (hd : ∀ c ∈ d, c.isDigit = true) :
    pySplit '/' (irisFmtL y m d) = [zfillL d 2, zfillL m 2, zfillL y 4] := by
  unfold irisFmtL
  rw [pySplit_append '/' _ _ (zfillL_slash_free d 2 hd),
    pySplit_append '/' _ _ (zfillL_slash_free m 2 hm),
    pySplit_sep_free '/' _ (zfillL_slash_free y 4 hy)]

/-! ### Characterizations of the edit steps -/

/-- The `DD/MM/YYYY` value `optionally_set_iris_dateobs` will write for a
given option record, if any. -/
def irisNew (o : Options) : Option String :=
  match o.iris_dateobs with
  | none => none
  | some v => (parseYMD v.data).map fun g => (⟨irisFmtL g.1 g.2.1 g.2.2⟩ : String)

theorem iris_get_ne (h : Header) (o : Options) (arg k : String)
    (hk : k ≠ "DATE-OBS") :
    hget (optionally_set_iris_dateobs h o arg).1 k = hget h k := by
  cases hio : o.iris_dateobs with
  | none => simp [optionally_set_iris_dateobs, hio]
  | some v =>
    cases hp : parseYMD v.data with
    | none => simp [optionally_set_iris_dateobs, hio, hp]
    | some g =>
      simp [optionally_set_iris_dateobs, hio, hp, hget_hset_ne h "DATE-OBS" _ k hk]

theorem iris_get_dateobs (h : Header) (o : Options) (arg : String) :
    hget (optionally_set_iris_dateobs h o arg).1 "DATE-OBS"
      = match irisNew o with
        | some s => some (.str s)
        | none => hget h "DATE-OBS" := by
  cases hio : o.iris_dateobs with
  | none => simp [optionally_set_iris_dateobs, irisNew, hio]
  | some v =>
    cases hp : parseYMD v.data with
    | none => simp [optionally_set_iris_dateobs, irisNew, hio, hp]
    | some g => simp [optionally_set_iris_dateobs, irisNew, hio, hp, hget_hset_self]

theorem set_object_ne (h : Header) (o : Options) (arg k : String)
    (hk : k ≠ "OBJECT") : hget (set_object h o arg).1 k = hget h k := by
  unfold set_object
  cases o.object with
  | none => rfl
  | some v => exact hget_hset_ne h "OBJECT" _ k hk

theorem set_object_key (h : Header) (o : Options) (arg : String) :
    hget (set_object h o arg).1 "OBJECT"
      = match o.object with
        | some v => some (.str v)
        | none => hget h "OBJECT" := by
  unfold set_object
  cases o.object with
  | none => rfl
  | some v => simp [hget_hset_self]

theorem set_filter_ne (h : Header) (o : Options) (arg k : String)
    (hk : k ≠ "FILTER") : hget (set_filter h o arg).1 k = hget h k := by
  unfold set_filter
  cases o.filter with
  | none => rfl
  | some f =>
    by_cases hm : hmem h "FILTER"
    · simp [hm]
    · simp [hm, hget_hset_ne h "FILTER" _ k hk]

theorem set_filter_key (h : Header) (o : Options) (arg : String) :
    hget (set_filter h o arg).1 "FILTER"
      = match o.filter with
        | none => hget h "FILTER"
        | some f =>
          match hget h "FILTER" with
          | some w => some w
          | none => some (.str f) := by
  unfold set_filter
  cases o.filter with
  | none => rfl
  | some f =>
    cases hg : hget h "FILTER" with
    | none => simp [hmem, hg, hget_hset_self]
    | some w => simp [hmem, hg]

theorem set_airmass_ne (h : Header) (o : Options) (arg k : String)
    (hk : k ≠ "AIRMASS") : hget (set_airmass h o arg).1 k = hget h k := by
  unfold set_airmass
  cases o.airmass with
  | none => rfl
  | some v => exact hget_hset_ne h "AIRMASS" _ k hk

theorem set_airmass_key (h : Header) (o : Options) (arg : String) :
    hget (set_airmass h o arg).1 "AIRMASS"
      = match o.airmass with
        | some v => some (.str v)
        | none => hget h "AIRMASS" := by
  unfold set_airmass
  cases o.airmass with
  | none => rfl
  | some v => simp [hget_hset_self]

theorem set_calstat_ne (h : Header) (o : Options) (arg k : String)
    (hk : k ≠ "CALSTAT") : hget (set_calstat h o arg).1 k = hget h k := by
  unfold set_calstat
  cases o.calstat with
  | none => rfl
  | some v =>
    by_cases hv : v ∈ (["B", "BD", "BF", "DF", "BDF"] : List String)
    · simp [hv, hget_hset_ne h "CALSTAT" _ k hk]
    · simp [hv]

theorem set_calstat_key (h : Header) (o : Options) (arg : String) :
    hget (set_calstat h o arg).1 "CALSTAT"
      = match o.calstat with
        | some v =>
          if v ∈ (["B", "BD", "BF", "DF", "BDF"] : List String)
          then some (.str v) else hget h "CALSTAT"
        | none => hget h "CALSTAT" := by
  unfold set_calstat
  cases o.calstat with
  | none => rfl
  | some v =>
    by_cases hv : v ∈ (["B", "BD", "BF", "DF", "BDF"] : List String)
    · simp [hv, hget_hset_self]
    · simp [hv]

theorem set_ra_ne (h : Header) (o : Options) (arg k : String)
    (hk : k ≠ "RA") : hget (set_ra h o arg).1 k = hget h k := by
  cases ho : o.ra with
  | none => simp [set_ra, ho]
  | some v =>
    cases hg : get_hd_m_s_str v false with
    | none => simp [set_ra, ho, hg]
    | some s => simp [set_ra, ho, hg, hget_hset_ne h "RA" _ k hk]

theorem set_ra_key (h : Header) (o : Options) (arg : String) :
    hget (set_ra h o arg).1 "RA"
      = match o.ra with
        | some v =>
          match get_hd_m_s_str v false with
          | some s => some (.str s)
          | none => hget h "RA"
        | none => hget h "RA" := by
  cases ho : o.ra with
  | none => simp [set_ra, ho]
  | some v =>
    cases hg : get_hd_m_s_str v false with
    | none => simp [set_ra, ho, hg]
    | some s => simp [set_ra, ho, hg, hget_hset_self]

theorem set_dec_ne (h : Header) (o : Options) (arg k : String)
    (hk : k ≠ "DEC") : hget (set_dec h o arg).1 k = hget h k := by
  cases ho : o.dec with
  | none => simp [set_dec, ho]
  | some v =>
    cases hg : get_hd_m_s_str v true with
    | none => simp [set_dec, ho, hg]
    | some s => simp [set_dec, ho, hg, hget_hset_ne h "DEC" _ k hk]

theorem set_dec_key (h : Header) (o : Options) (arg : String) :
    hget (set_dec h o arg).1 "DEC"
      = match o.dec with
        | some v =>
          match get_hd_m_s_str v true with
          | some s => some (.str s)
          | none => hget h "DEC"
        | none => hget h "DEC" := by
  cases ho : o.dec with
  | none => simp [set_dec, ho]
  | some v =>
    cases hg : get_hd_m_s_str v true with
    | none => simp [set_dec, ho, hg]
    | some s => simp [set_dec, ho, hg, hget_hset_self]

theorem tail_ne (h : Header) (o : Options) (arg k : String)
    (h1 : k ≠ "OBJECT") (h2 : k ≠ "FILTER") (h3 : k ≠ "AIRMASS")
    (h4 : k ≠ "CALSTAT") (h5 : k ≠ "RA") (h6 : k ≠ "DEC") :
    hget (tailSteps h o arg).1 k = hget h k := by
  simp only [tailSteps]
  rw [set_dec_ne _ _ _ _ h6, set_ra_ne _ _ _ _ h5, set_calstat_ne _ _ _ _ h4,
    set_airmass_ne _ _ _ _ h3, set_filter_ne _ _ _ _ h2, set_object_ne _ _ _ _ h1]

theorem tail_object (h : Header) (o : Options) (arg : String) :
    hget (tailSteps h o arg).1 "OBJECT"
      = match o.object with
        | some v => some (.str v)
        | none => hget h "OBJECT" := by
  simp only [tailSteps]
  rw [set_dec_ne _ _ _ _ (by decide), set_ra_ne _ _ _ _ (by decide),
    set_calstat_ne _ _ _ _ (by decide), set_airmass_ne _ _ _ _ (by decide),
    set_filter_ne _ _ _ _ (by decide), set_object_key]

theorem tail_filter (h : Header) (o : Options) (arg : String) :
    hget (tailSteps h o arg).1 "FILTER"
      = match o.filter with
        | none => hget h "FILTER"
        | some f =>
          match hget h "FILTER" with
          | some w => some w
          | none => some (.str f) := by
  simp only [tailSteps]
  rw [set_dec_ne _ _ _ _ (by decide), set_ra_ne _ _ _ _ (by decide),
    set_calstat_ne _ _ _ _ (by decide), set_airmass_ne _ _ _ _ (by decide),
    set_filter_key, set_object_ne _ _ _ _ (by decide)]

theorem tail_airmass (h : Header) (o : Options) (arg : String) :
    hget (tailSteps h o arg).1 "AIRMASS"
      = match o.airmass with
        | some v => some (.str v)
        | none => hget h "AIRMASS" := by
  simp only [tailSteps]
  rw [set_dec_ne _ _ _ _ (by decide), set_ra_ne _ _ _ _ (by decide),
    set_calstat_ne _ _ _ _ (by decide), set_airmass_key,
    set_filter_ne _ _ _ _ (by decide), set_object_ne _ _ _ _ (by decide)]

theorem tail_calstat (h : Header) (o : Options) (arg : String) :
    hget (tailSteps h o arg).1 "CALSTAT"
      = match o.calstat with
        | some v =>
          if v ∈ (["B", "BD", "BF", "DF", "BDF"] : List String)
          then some (.str v) else hget h "CALSTAT"
        | none => hget h "CALSTAT" := by
  simp only [tailSteps]
  rw [set_dec_ne _ _ _ _ (by decide), set_ra_ne _ _ _ _ (by decide),
    set_calstat_key, set_airmass_ne _ _ _ _ (by decide),
    set_filter_ne _ _ _ _ (by decide), set_object_ne _ _ _ _ (by decide)]

theorem tail_ra (h : Header) (o : Options) (arg : String) :
    hget (tailSteps h o arg).1 "RA"
      = match o.ra with
        | some v =>
          match get_hd_m_s_str v false with
          | some s => some (.str s)
          | none => hget h "RA"
        | none => hget h "RA" := by
  simp only [tailSteps]
  rw [set_dec_ne _ _ _ _ (by decide), set_ra_key, set_calstat_ne _ _ _ _ (by decide),
    set_airmass_ne _ _ _ _ (by decide), set_filter_ne _ _ _ _ (by decide),
    set_object_ne _ _ _ _ (by decide)]

theorem tail_dec (h : Header) (o : Options) (arg : String) :
    hget (tailSteps h o arg).1 "DEC"
      = match o.dec with
        | some v =>
          match get_hd_m_s_str v true with
          | some s => some (.str s)
          | none => hget h "DEC"
        | none => hget h "DEC" := by
  simp only [tailSteps]
  rw [set_dec_key, set_ra_ne _ _ _ _ (by decide), set_calstat_ne _ _ _ _ (by decide),
    set_airmass_ne _ _ _ _ (by decide), set_filter_ne _ _ _ _ (by decide),
    set_object_ne _ _ _ _ (by decide)]

theorem extract_cases (h : Header) (arg : String) (fd : Option Value)
    (h1 : Header) (ms : List Msg)
    (he : extract_full_dateobs h arg = some (fd, h1, ms)) :
    (∃ ut dob dd mm yyyy, hget h "UT-START" = some (.str ut)
        ∧ hget h "DATE-OBS" = some (.str dob)
        ∧ pySplit '/' dob.data = [dd, mm, yyyy]
        ∧ fd = some (.str ⟨yyyy ++ '-' :: (mm ++ '-' :: (dd ++ 'T' :: ut.data))⟩)
        ∧ h1 = hdel h "UT-START" ∧ ms = [])
  ∨ (∃ ut dob, hget h "UT-START" = some (.str ut)
        ∧ hget h "DATE-OBS" = some (.str dob)
        ∧ (∀ x y z, pySplit '/' dob.data ≠ [x, y, z])
        ∧ fd = none ∧ h1 = h ∧ ms = [Msg.dateObsFormatNotDdMmYyyy arg])
  ∨ (hget h "UT-START" = none ∧ fd = hget h "DATE-OBS" ∧ fd.isSome
        ∧ h1 = h ∧ ms = [])
  ∨ (hget h "DATE-OBS" = none ∧ fd = none ∧ h1 = h ∧ ms = [Msg.noDateObs arg]) := by
  unfold extract_full_dateobs at he
  cases hut : hget h "UT-START" with
  | none =>
    simp only [hmem, hut, Option.isSome_none, Bool.false_and, Bool.false_eq_true,
      if_false] at he
    cases hdo : hget h "DATE-OBS" with
    | none =>
      simp only [hdo, Option.isSome_none, Bool.false_eq_true, if_false,
        Option.some.injEq, Prod.mk.injEq] at he
      obtain ⟨rfl, rfl, rfl⟩ := he
      exact Or.inr (Or.inr (Or.inr ⟨rfl, rfl, rfl, rfl⟩))
    | some v =>
      simp only [hdo, Option.isSome_some, if_true, Option.some.injEq,
        Prod.mk.injEq] at he
      obtain ⟨rfl, rfl, rfl⟩ := he
      exact Or.inr (Or.inr (Or.inl ⟨rfl, rfl, rfl, rfl, rfl⟩))
  | some vu =>
    cases hdo : hget h "DATE-OBS" with
    | none =>
      simp only [hmem, hut, hdo, Option.isSome_some, Option.isSome_none,
        Bool.and_false, Bool.false_eq_true, if_false, Option.some.injEq,
        Prod.mk.injEq] at he
      obtain ⟨rfl, rfl, rfl⟩ := he
      exact Or.inr (Or.inr (Or.inr ⟨rfl, rfl, rfl, rfl⟩))
    | some vdo =>
      simp only [hmem, hut, hdo, Option.isSome_some, Bool.and_self, if_true] at he
      split at he
      · next ut dob hequ heqd =>
        obtain rfl : vu = Value.str ut := by injection hequ
        obtain rfl : vdo = Value.str dob := by injection heqd
        split at he
        · next dd mm yyyy heq =>
          simp only [Option.some.injEq, Prod.mk.injEq] at he
          obtain ⟨rfl, rfl, rfl⟩ := he
          exact Or.inl ⟨ut, dob, dd, mm, yyyy, rfl, rfl, heq, rfl, rfl, rfl⟩
        · next hne =>
          simp only [Option.some.injEq, Prod.mk.injEq] at he
          obtain ⟨rfl, rfl, rfl⟩ := he
          refine Or.inr (Or.inl ⟨ut, dob, rfl, rfl, ?_, rfl, rfl, rfl⟩)
          intro x y z hxyz
          exact hne x y z hxyz
      · next hne => cases he

theorem set_times_cases (h : Header) (o : Options) (arg : String)
    (h' : Header) (m : List Msg) (hs : set_times h o arg = some (h', m)) :
    (o.adjust_time = false ∧ h' = h ∧ m = [])
  ∨ (o.adjust_time = true ∧ extract_full_dateobs h arg = some (none, h', m))
  ∨ (o.adjust_time = true ∧ ∃ s h1 ms0 t e,
       extract_full_dateobs h arg = some (some (.str s), h1, ms0)
       ∧ parseIsot s = some t ∧ resolve_exp_time h1 o = some e
       ∧ h' = hset (hset (hset h1 "DATE-OBS"
            (.str (if o.use_midpoint_for_dateobs then fmtIsot (midpoint_t o t e)
                   else fmtIsot (adjusted_t o t)))) "MIDPOINT"
            (.str (fmtIsot (midpoint_t o t e)))) "JD" (.num (jdOf (midpoint_t o t e)))) := by
  unfold set_times at hs
  cases hadj : o.adjust_time with
  | false =>
    rw [hadj] at hs
    simp only [Bool.not_false, if_true, Option.some.injEq, Prod.mk.injEq] at hs
    obtain ⟨rfl, rfl⟩ := hs
    exact Or.inl ⟨rfl, rfl, rfl⟩
  | true =>
    rw [hadj] at hs
    simp only [Bool.not_true, Bool.false_eq_true, if_false] at hs
    split at hs
    · cases hs
    · rename_i fd h1 ms0 hex
      split at hs
      · simp only [Option.some.injEq, Prod.mk.injEq] at hs
        obtain ⟨rfl, rfl⟩ := hs
        exact Or.inr (Or.inl ⟨rfl, hex⟩)
      · cases hs
      · rename_i s
        split at hs
        · cases hs
        · rename_i t hpt
          split at hs
          · cases hs
          · rename_i e hre
            refine Or.inr (Or.inr ⟨rfl, s, h1, ms0, t, e, hex, hpt, hre, ?_⟩)
            by_cases hm : o.use_midpoint_for_dateobs <;>
              simp only [hm, if_true, if_false, Option.some.injEq, Prod.mk.injEq] at hs ⊢ <;>
              exact hs.1.symm

theorem set_times_ne (h : Header) (o : Options) (arg : String)
    (h' : Header) (m : List Msg) (hs : set_times h o arg = some (h', m))
    (k : String) (k1 : k ≠ "DATE-OBS") (k2 : k ≠ "MIDPOINT") (k3 : k ≠ "JD")
    (k4 : k ≠ "UT-START") : hget h' k = hget h k := by
  rcases set_times_cases h o arg h' m hs with ⟨_, rfl, _⟩ | ⟨_, hex⟩ |
    ⟨_, s, h1, ms0, t, e, hex, _, _, rfl⟩
  · rfl
  · rcases extract_cases h arg none h' m hex with
      ⟨_, _, _, _, _, _, _, _, hfd, _, _⟩ | ⟨_, _, _, _, _, _, rfl, _⟩ |
      ⟨_, _, hfd, _, _⟩ | ⟨_, _, rfl, _⟩
    · cases hfd
    · rfl
    · cases hfd
    · rfl
  · rw [hget_hset_ne _ _ _ _ k3, hget_hset_ne _ _ _ _ k2, hget_hset_ne _ _ _ _ k1]
    rcases extract_cases h arg _ h1 ms0 hex with
      ⟨_, _, _, _, _, _, _, _, _, rfl, _⟩ | ⟨_, _, _, _, _, hfd, _, _⟩ |
      ⟨_, _, _, rfl, _⟩ | ⟨_, hfd, _, _⟩
    · exact hget_hdel_ne h "UT-START" k k4
    · cases hfd
    · rfl
    · cases hfd

theorem set_times_ut (h : Header) (o : Options) (arg : String)
    (h' : Header) (m : List Msg) (hs : set_times h o arg = some (h', m)) :
    hget h' "UT-START" = hget h "UT-START"
  ∨ (o.adjust_time = true ∧ hget h' "UT-START" = none
      ∧ ∃ ut dob x y z, hget h "UT-START" = some (.str ut)
        ∧ hget h "DATE-OBS" = some (.str dob)
        ∧ pySplit '/' dob.data = [x, y, z]) := by
  rcases set_times_cases h o arg h' m hs with ⟨_, rfl, _⟩ | ⟨hadj, hex⟩ |
    ⟨hadj, s, h1, ms0, t, e, hex, _, _, rfl⟩
  · exact Or.inl rfl
  · rcases extract_cases h arg none h' m hex with
      ⟨_, _, _, _, _, _, _, _, hfd, _, _⟩ | ⟨_, _, _, _, _, _, rfl, _⟩ |
      ⟨_, _, hfd, _, _⟩ | ⟨_, _, rfl, _⟩
    · cases hfd
    · exact Or.inl rfl
    · cases hfd
    · exact Or.inl rfl
  · rcases extract_cases h arg _ h1 ms0 hex with
      ⟨ut, dob, dd, mm, yyyy, hutg, hdog, hsp, _, rfl, _⟩ | ⟨_, _, _, _, _, hfd, _, _⟩ |
      ⟨hutn, _, _, rfl, _⟩ | ⟨_, hfd, _, _⟩
    · refine Or.inr ⟨hadj, ?_, ut, dob, dd, mm, yyyy, hutg, hdog, hsp⟩
      rw [hget_hset_ne _ _ _ _ (by decide), hget_hset_ne _ _ _ _ (by decide),
        hget_hset_ne _ _ _ _ (by decide)]
      exact hget_hdel_self h "UT-START"
    · cases hfd
    · refine Or.inl ?_
      rw [hget_hset_ne _ _ _ _ (by decide), hget_hset_ne _ _ _ _ (by decide),
        hget_hset_ne _ _ _ _ (by decide)]
    · cases hfd

theorem set_times_survive (h : Header) (o : Options) (arg : String)
    (h' : Header) (m : List Msg) (hs : set_times h o arg = some (h', m))
    (hsurv : hget h' "UT-START" ≠ none) :
    h' = h ∧ (o.adjust_time = false
      ∨ (∃ ut dob, hget h "UT-START" = some (.str ut)
           ∧ hget h "DATE-OBS" = some (.str dob)
           ∧ ∀ x y z, pySplit '/' dob.data ≠ [x, y, z])
      ∨ hget h "DATE-OBS" = none) := by
  rcases set_times_cases h o arg h' m hs with ⟨hadj, rfl, _⟩ | ⟨hadj, hex⟩ |
    ⟨hadj, s, h1, ms0, t, e, hex, _, _, rfl⟩
  · exact ⟨rfl, Or.inl hadj⟩
  · rcases extract_cases h arg none h' m hex with
      ⟨_, _, _, _, _, _, _, _, hfd, _, _⟩ | ⟨ut, dob, hutg, hdog, hne, _, rfl, _⟩ |
      ⟨_, _, hfd, _, _⟩ | ⟨hdon, _, rfl, _⟩
    · cases hfd
    · exact ⟨rfl, Or.inr (Or.inl ⟨ut, dob, hutg, hdog, hne⟩)⟩
    · cases hfd
    · exact ⟨rfl, Or.inr (Or.inr hdon)⟩
  · rcases extract_cases h arg _ h1 ms0 hex with
      ⟨ut, dob, dd, mm, yyyy, hutg, hdog, hsp, _, rfl, _⟩ | ⟨_, _, _, _, _, hfd, _, _⟩ |
      ⟨hutn, _, _, rfl, _⟩ | ⟨_, hfd, _, _⟩
    · exact absurd (by
        rw [hget_hset_ne _ _ _ _ (by decide), hget_hset_ne _ _ _ _ (by decide),
          hget_hset_ne _ _ _ _ (by decide)]
        exact hget_hdel_self h "UT-START") hsurv
    · cases hfd
    · exact absurd (by
        rw [hget_hset_ne _ _ _ _ (by decide), hget_hset_ne _ _ _ _ (by decide),
          hget_hset_ne _ _ _ _ (by decide)]
        exact hutn) hsurv
    · cases hfd

theorem parseYMD_digits (cs y m d : List Char)
    (hp : parseYMD cs = some (y, m, d)) :
    (∀ c ∈ y, c.isDigit = true) ∧ (∀ c ∈ m, c.isDigit = true)
      ∧ (∀ c ∈ d, c.isDigit = true) := by
  simp only [parseYMD] at hp
  split at hp
  · split at hp
    · split at hp
      · split at hp
        · split at hp
          · simp only [Option.some.injEq, Prod.mk.injEq] at hp
            obtain ⟨rfl, rfl, rfl⟩ := hp
            exact ⟨grabDigits_digits _ _ _ rfl, grabDigits_digits _ _ _ rfl,
              grabDigits_digits _ _ _ rfl⟩
          · cases hp
        · cases hp
      · cases hp
    · cases hp
  · cases hp

theorem applyEdits_decomp (h : Header) (o : Options) (arg : String)
    (h1 : Header) (m1 : List Msg) (hp : applyEdits h o arg = some (h1, m1)) :
    ∃ q : Header × List Msg,
      set_times (optionally_set_iris_dateobs h o arg).1 o arg = some q
        ∧ h1 = (tailSteps q.1 o arg).1 := by
  unfold applyEdits applyEditsRest at hp
  split at hp
  · cases hp
  · rename_i q hst
    refine ⟨q, hst, ?_⟩
    simp only [Option.some.injEq, Prod.mk.injEq] at hp
    exact hp.1.symm

/-- The UT-START card seen after a second pass of the edit sequence equals
the one seen after the first pass. -/
theorem applyEdits_ut (h : Header) (o : Options) (arg : String)
    (h1 : Header) (m1 : List Msg) (h2 : Header) (m2 : List Msg)
    (p1 : applyEdits h o arg = some (h1, m1))
    (p2 : applyEdits h1 o arg = some (h2, m2)) :
    hget h2 "UT-START" = hget h1 "UT-START" := by
  obtain ⟨qB, st1, hh1⟩ := applyEdits_decomp h o arg h1 m1 p1
  obtain ⟨qD, st2, hh2⟩ := applyEdits_decomp h1 o arg h2 m2 p2
  have tailUT : ∀ x : Header, hget (tailSteps x o arg).1 "UT-START" = hget x "UT-START" :=
    fun x => tail_ne x o arg "UT-START" (by decide) (by decide) (by decide)
      (by decide) (by decide) (by decide)
  have irisUT : ∀ x : Header,
      hget (optionally_set_iris_dateobs x o arg).1 "UT-START" = hget x "UT-START" :=
    fun x => iris_get_ne x o arg "UT-START" (by decide)
  rcases set_times_ut _ o arg qD.1 qD.2 (by rw [← st2]) with hEq |
    ⟨hadj2, hDnone, ut2, dob2, x, y, z, hUT2, hDO2, hsplit2⟩
  · rw [hh2, tailUT, hEq, irisUT]
  · -- the second pass consolidated UT-START and DATE-OBS: derive a contradiction
    -- with the success of the first pass.
    exfalso
    have hUT1v : hget h1 "UT-START" = some (.str ut2) := by
      rw [← irisUT h1]; exact hUT2
    have hSurvB : hget qB.1 "UT-START" ≠ none := by
      rw [← tailUT qB.1, ← hh1, hUT1v]
      simp
    obtain ⟨hBeq, hwhy⟩ := set_times_survive _ o arg qB.1 qB.2 (by rw [← st1]) hSurvB
    -- hBeq : qB.1 = the header after the first pass's iris step
    have hDO1 : hget h1 "DATE-OBS"
        = hget (optionally_set_iris_dateobs h o arg).1 "DATE-OBS" := by
      rw [hh1, tail_ne _ o arg "DATE-OBS" (by decide) (by decide) (by decide)
        (by decide) (by decide) (by decide), hBeq]
    rcases hwhy with hadjF | ⟨ut1, dob1, hUT1g, hDO1g, hnsplit⟩ | hDOnone
    · rw [hadjF] at hadj2
      cases hadj2
    · -- the first pass saw a DATE-OBS that does not split into three fields
      cases hirisNew : irisNew o with
      | none =>
        have hDO2v : hget h1 "DATE-OBS" = some (.str dob2) := by
          have hiq := iris_get_dateobs h1 o arg
          simp only [hirisNew] at hiq
          rw [← hiq]
          exact hDO2
        have hdob : dob1 = dob2 := by
          rw [hDO2v, hDO1g] at hDO1
          simp only [Option.some.injEq, Value.str.injEq] at hDO1
          exact hDO1.symm
        exact hnsplit x y z (by rw [hdob]; exact hsplit2)
      | some snew =>
        -- the iris step wrote the same DD/MM/YYYY value in both passes,
        -- and that value always splits into three fields
        have hdob1v : hget (optionally_set_iris_dateobs h o arg).1 "DATE-OBS"
            = some (.str snew) := by
          have hiq := iris_get_dateobs h o arg
          simp only [hirisNew] at hiq
          exact hiq
        have hdob1 : dob1 = snew := by
          rw [hDO1g] at hdob1v
          simp only [Option.some.injEq, Value.str.injEq] at hdob1v
          exact hdob1v
        -- snew is an irisFmtL string, which splits into three groups
        unfold irisNew at hirisNew
        cases hio : o.iris_dateobs with
        | none =>
          simp only [hio] at hirisNew
          cases hirisNew
        | some v =>
          simp only [hio] at hirisNew
          cases hpv : parseYMD v.data with
          | none =>
            simp only [hpv, Option.map_none'] at hirisNew
            cases hirisNew
          | some g =>
            simp only [hpv, Option.map_some', Option.some.injEq] at hirisNew
            obtain ⟨hyd, hmd, hdd⟩ := parseYMD_digits v.data g.1 g.2.1 g.2.2
              (by rw [hpv])
            have hsp3 : pySplit '/' snew.data
                = [zfillL g.2.2 2, zfillL g.2.1 2, zfillL g.1 4] := by
              rw [← hirisNew]
              exact irisFmt_split g.1 g.2.1 g.2.2 hyd hmd hdd
            exact hnsplit _ _ _ (by rw [hdob1]; exact hsp3)
    · -- the first pass's iris-step output had no DATE-OBS at all
      have hirisNone : irisNew o = none := by
        cases hirisNew : irisNew o with
        | none => rfl
        | some snew =>
          have hiq := iris_get_dateobs h o arg
          simp only [hirisNew] at hiq
          rw [hiq] at hDOnone
          cases hDOnone
      have hDO2v : hget h1 "DATE-OBS" = some (.str dob2) := by
        have hiq := iris_get_dateobs h1 o arg
        simp only [hirisNone] at hiq
        rw [← hiq]
        exact hDO2
      rw [hDO1, hDOnone] at hDO2v
      cases hDO2v

theorem applyEdits_get (h : Header) (o : Options) (arg : String)
    (h1 : Header) (m1 : List Msg) (hp : applyEdits h o arg = some (h1, m1))
    (k : String) (k1 : k ≠ "DATE-OBS") (k2 : k ≠ "MIDPOINT") (k3 : k ≠ "JD")
    (k4 : k ≠ "UT-START") (k5 : k ≠ "OBJECT") (k6 : k ≠ "FILTER")
    (k7 : k ≠ "AIRMASS") (k8 : k ≠ "CALSTAT") (k9 : k ≠ "RA")
    (k10 : k ≠ "DEC") : hget h1 k = hget h k := by
  obtain ⟨q, st, hh⟩ := applyEdits_decomp h o arg h1 m1 hp
  rw [hh, tail_ne _ o arg k k5 k6 k7 k8 k9 k10,
    set_times_ne _ o arg q.1 q.2 (by rw [← st]) k k1 k2 k3 k4,
    iris_get_ne _ o arg k k1]

theorem applyEdits_object (h : Header) (o : Options) (arg : String)
    (h1 : Header) (m1 : List Msg) (hp : applyEdits h o arg = some (h1, m1)) :
    hget h1 "OBJECT" = match o.object with
      | some v => some (.str v)
      | none => hget h "OBJECT" := by
  obtain ⟨q, st, hh⟩ := applyEdits_decomp h o arg h1 m1 hp
  rw [hh, tail_object]
  cases ho : o.object with
  | some v => rfl
  | none =>
    rw [set_times_ne _ o arg q.1 q.2 (by rw [← st]) _ (by decide) (by decide)
      (by decide) (by decide), iris_get_ne _ o arg _ (by decide)]

theorem applyEdits_filter (h : Header) (o : Options) (arg : String)
    (h1 : Header) (m1 : List Msg) (hp : applyEdits h o arg = some (h1, m1)) :
    hget h1 "FILTER" = match o.filter with
      | none => hget h "FILTER"
      | some f =>
        match hget h "FILTER" with
        | some w => some w
        | none => some (.str f) := by
  obtain ⟨q, st, hh⟩ := applyEdits_decomp h o arg h1 m1 hp
  rw [hh, tail_filter]
  have hq : hget q.1 "FILTER" = hget h "FILTER" := by
    rw [set_times_ne _ o arg q.1 q.2 (by rw [← st]) _ (by decide) (by decide)
      (by decide) (by decide), iris_get_ne _ o arg _ (by decide)]
  rw [hq]

theorem applyEdits_airmass (h : Header) (o : Options) (arg : String)
    (h1 : Header) (m1 : List Msg) (hp : applyEdits h o arg = some (h1, m1)) :
    hget h1 "AIRMASS" = match o.airmass with
      | some v => some (.str v)
      | none => hget h "AIRMASS" := by
  obtain ⟨q, st, hh⟩ := applyEdits_decomp h o arg h1 m1 hp
  rw [hh, tail_airmass]
  cases ho : o.airmass with
  | some v => rfl
  | none =>
    rw [set_times_ne _ o arg q.1 q.2 (by rw [← st]) _ (by decide) (by decide)
      (by decide) (by decide), iris_get_ne _ o arg _ (by decide)]

theorem applyEdits_calstat (h : Header) (o : Options) (arg : String)
    (h1 : Header) (m1 : List Msg) (hp : applyEdits h o arg = some (h1, m1)) :
    hget h1 "CALSTAT" = match o.calstat with
      | some v =>
        if v ∈ (["B", "BD", "BF", "DF", "BDF"] : List String)
        then some (.str v) else hget h "CALSTAT"
      | none => hget h "CALSTAT" := by
  obtain ⟨q, st, hh⟩ := applyEdits_decomp h o arg h1 m1 hp
  rw [hh, tail_calstat]
  have hq : hget q.1 "CALSTAT" = hget h "CALSTAT" := by
    rw [set_times_ne _ o arg q.1 q.2 (by rw [← st]) _ (by decide) (by decide)
      (by decide) (by decide), iris_get_ne _ o arg _ (by decide)]
  rw [hq]

theorem applyEdits_ra (h : Header) (o : Options) (arg : String)
    (h1 : Header) (m1 : List Msg) (hp : applyEdits h o arg = some (h1, m1)) :
    hget h1 "RA" = match o.ra with
      | some v =>
        match get_hd_m_s_str v false with
        | some s => some (.str s)
        | none => hget h "RA"
      | none => hget h "RA" := by
  obtain ⟨q, st, hh⟩ := applyEdits_decomp h o arg h1 m1 hp
  rw [hh, tail_ra]
  have hq : hget q.1 "RA" = hget h "RA" := by
    rw [set_times_ne _ o arg q.1 q.2 (by rw [← st]) _ (by decide) (by decide)
      (by decide) (by decide), iris_get_ne _ o arg _ (by decide)]
  rw [hq]

theorem applyEdits_dec (h : Header) (o : Options) (arg : String)
    (h1 : Header) (m1 : List Msg) (hp : applyEdits h o arg = some (h1, m1)) :
    hget h1 "DEC" = match o.dec with
      | some v =>
        match get_hd_m_s_str v true with
        | some s => some (.str s)
        | none => hget h "DEC"
      | none => hget h "DEC" := by
  obtain ⟨q, st, hh⟩ := applyEdits_decomp h o arg h1 m1 hp
  rw [hh, tail_dec]
  have hq : hget q.1 "DEC" = hget h "DEC" := by
    rw [set_times_ne _ o arg q.1 q.2 (by rw [← st]) _ (by decide) (by decide)
      (by decide) (by decide), iris_get_ne _ o arg _ (by decide)]
  rw [hq]

/-- C3 (amended): applying the full edit sequence twice with the same
Options agrees on every keyword outside DATE-OBS, MIDPOINT and JD; those
three are recomputed on the second pass by running the time adjustment
again on the first pass's output. -/
theorem apply_twice_agree_outside_time_fields (h : Header) (o : Options)
    (arg : String) (h1 : Header) (m1 : List Msg) (h2 : Header) (m2 : List Msg)
    (p1 : applyEdits h o arg = some (h1, m1))
    (p2 : applyEdits h1 o arg = some (h2, m2)) :
    (∀ k, k ≠ "DATE-OBS" → k ≠ "MIDPOINT" → k ≠ "JD" → hget h2 k = hget h1 k)
    ∧ (∃ ht mt, set_times (optionally_set_iris_dateobs h1 o arg).1 o arg
          = some (ht, mt)
        ∧ hget h2 "DATE-OBS" = hget ht "DATE-OBS"
        ∧ hget h2 "MIDPOINT" = hget ht "MIDPOINT"
        ∧ hget h2 "JD" = hget ht "JD") := by
  constructor
  · intro k k1 k2 k3
    by_cases kObj : k = "OBJECT"
    · subst kObj
      have e2 := applyEdits_object h1 o arg h2 m2 p2
      have e1 := applyEdits_object h o arg h1 m1 p1
      cases ho : o.object with
      | none => simp only [ho] at e2; exact e2
      | some v =>
        simp only [ho] at e2 e1
        rw [e2, e1]
    by_cases kFil : k = "FILTER"
    · subst kFil
      have e2 := applyEdits_filter h1 o arg h2 m2 p2
      have e1 := applyEdits_filter h o arg h1 m1 p1
      cases hf : o.filter with
      | none => simp only [hf] at e2; exact e2
      | some f =>
        simp only [hf] at e2 e1
        cases hw : hget h "FILTER" with
        | none => simp only [hw] at e1; rw [e2, e1]
        | some w => simp only [hw] at e1; rw [e2, e1]
    by_cases kAir : k = "AIRMASS"
    · subst kAir
      have e2 := applyEdits_airmass h1 o arg h2 m2 p2
      have e1 := applyEdits_airmass h o arg h1 m1 p1
      cases ha : o.airmass with
      | none => simp only [ha] at e2; exact e2
      | some v =>
        simp only [ha] at e2 e1
        rw [e2, e1]
    by_cases kCal : k = "CALSTAT"
    · subst kCal
      have e2 := applyEdits_calstat h1 o arg h2 m2 p2
      have e1 := applyEdits_calstat h o arg h1 m1 p1
      cases hc : o.calstat with
      | none => simp only [hc] at e2; exact e2
      | some v =>
        simp only [hc] at e2 e1
        by_cases hv : v ∈ (["B", "BD", "BF", "DF", "BDF"] : List String)
        · rw [e2, if_pos hv, e1, if_pos hv]
        · rw [e2, if_neg hv]
    by_cases kRa : k = "RA"
    · subst kRa
      have e2 := applyEdits_ra h1 o arg h2 m2 p2
      have e1 := applyEdits_ra h o arg h1 m1 p1
      cases hr : o.ra with
      | none => simp only [hr] at e2; exact e2
      | some v =>
        simp only [hr] at e2 e1
        cases hg : get_hd_m_s_str v false with
        | none => simp only [hg] at e2; exact e2
        | some s => simp only [hg] at e2 e1; rw [e2, e1]
    by_cases kDec : k = "DEC"
    · subst kDec
      have e2 := applyEdits_dec h1 o arg h2 m2 p2
      have e1 := applyEdits_dec h o arg h1 m1 p1
      cases hr : o.dec with
      | none => simp only [hr] at e2; exact e2
      | some v =>
        simp only [hr] at e2 e1
        cases hg : get_hd_m_s_str v true with
        | none => simp only [hg] at e2; exact e2
        | some s => simp only [hg] at e2 e1; rw [e2, e1]
    by_cases kUt : k = "UT-START"
    · subst kUt
      exact applyEdits_ut h o arg h1 m1 h2 m2 p1 p2
    · exact applyEdits_get h1 o arg h2 m2 p2 k k1 k2 k3 kUt kObj kFil kAir
        kCal kRa kDec
  · obtain ⟨qD, st2, hh2⟩ := applyEdits_decomp h1 o arg h2 m2 p2
    refine ⟨qD.1, qD.2, by rw [st2], ?_, ?_, ?_⟩ <;>
      rw [hh2, tail_ne _ o arg _ (by decide) (by decide) (by decide) (by decide)
        (by decide) (by decide)]

/-! ### Concrete option records used by witnesses and counterexamples -/

/-- The default option record: no edits requested. -/
def oNone : Options :=
  { airmass := none, calstat := none, iris_dateobs := none, dec := none,
    exp_time := 0, filter := none, use_midpoint_for_dateobs := false,
    adjust_time := false, object := none, ra := none, tz_offset := 0,
    verbose := false }

def oFil : Options := { oNone with filter := some "R", verbose := true }

def oRAspace : Options := { oNone with ra := some "12 34 56.7" }

def oCalGood : Options := { oNone with calstat := some "BD" }

def oCalBad : Options := { oNone with calstat := some "DB" }

def oIrisGood : Options := { oNone with iris_dateobs := some "2023-1-2" }

def oIrisBad : Options := { oNone with iris_dateobs := some "2023/01/02" }

def oIris13 : Options := { oNone with iris_dateobs := some "2023-13-40" }

def oRA99 : Options := { oNone with ra := some "12:99:99" }

/-! ### The claims -/

/-- C4, counterexample to the claim as stated: when FILTER already has a
value, the script not only skips the write but also reports nothing — no
"changed from X to Y" message is printed, even in verbose mode. -/
theorem set_filter_present_silent :
    set_filter [("FILTER", Value.str "V")] oFil "f"
      = ([("FILTER", Value.str "V")], []) := by
  decide

/-- C4 (amended): when a filter option is provided and FILTER is absent,
the new value is written and a verbose-only "changed from None to Y"
message is reported; when FILTER already has a value, the write is
skipped and no message is reported. -/
theorem set_filter_spec (h : Header) (o : Options) (arg f : String)
    (hf : o.filter = some f) :
    (hget h "FILTER" ≠ none → set_filter h o arg = (h, []))
    ∧ (hget h "FILTER" = none →
        set_filter h o arg = (hset h "FILTER" (.str f),
          if o.verbose then [Msg.filterChanged arg none f] else [])) := by
  constructor <;> intro hw
  · have hmemt : hmem h "FILTER" = true := by
      simp [hmem, Option.isSome_iff_ne_none, hw]
    simp [set_filter, hf, hmemt]
  · have hmemf : hmem h "FILTER" = false := by
      simp [hmem, hw]
    simp [set_filter, hf, hmemf]

/-- Witness for the amended C4 at concrete headers, in both branches. -/
theorem set_filter_spec_witness :
    set_filter [("FILTER", Value.str "B")] oFil "f"
      = ([("FILTER", Value.str "B")], [])
    ∧ set_filter [] oFil "f" = (hset [] "FILTER" (.str "R"),
        if oFil.verbose then [Msg.filterChanged "f" none "R"] else []) :=
  ⟨(set_filter_spec [("FILTER", Value.str "B")] oFil "f" "R" rfl).1 (by decide),
   (set_filter_spec [] oFil "f" "R" rfl).2 rfl⟩

/-- C5: the colon-separated RA form is accepted and reformatted, but the
space-separated form documented in the option help text ("H:M:S.n or
H M S.n") is rejected with a diagnostic and no mutation; the Dec sign and
signless examples behave as claimed in the colon form. -/
theorem ra_space_separated_rejected :
    get_hd_m_s_str "12:34:56.7" false = some "12 34 56.7"
  ∧ get_hd_m_s_str "12 34 56.7" false = none
  ∧ set_ra [] oRAspace "f" = ([], [Msg.invalidRA "f" "12 34 56.7"])
  ∧ get_hd_m_s_str "-5:6:7" true = some "-5 6 7"
  ∧ get_hd_m_s_str "34:5:6" true = some "34 5 6"
  ∧ get_hd_m_s_str "-5 6 7" true = none := by
  decide

/-- C6: a legacy-date option value matching `YYYY-MM-DD` rewrites DATE-OBS
to the zero-padded `DD/MM/YYYY` form, before the time-adjustment step; a
non-matching value is reported and leaves the header untouched. -/
theorem iris_dateobs_spec :
    (∀ (h : Header) (o : Options) (arg v : String)
       (g : List Char × List Char × List Char),
       o.iris_dateobs = some v → parseYMD v.data = some g →
       optionally_set_iris_dateobs h o arg
         = (hset h "DATE-OBS" (.str ⟨irisFmtL g.1 g.2.1 g.2.2⟩),
            if o.verbose then [Msg.irisInitial arg (hget h "DATE-OBS"),
              Msg.irisAdjusted arg ⟨irisFmtL g.1 g.2.1 g.2.2⟩] else []))
  ∧ (∀ (h : Header) (o : Options) (arg v : String),
       o.iris_dateobs = some v → parseYMD v.data = none →
       optionally_set_iris_dateobs h o arg = (h, [Msg.notYyyyMmDd v]))
  ∧ (∀ (h : Header) (o : Options) (arg : String),
       applyEdits h o arg
         = applyEditsRest (optionally_set_iris_dateobs h o arg) o arg) := by
  refine ⟨?_, ?_, fun h o arg => rfl⟩
  · intro h o arg v g hio hp
    simp [optionally_set_iris_dateobs, hio, hp]
  · intro h o arg v hio hp
    simp [optionally_set_iris_dateobs, hio, hp]

/-- Witness for C6 at concrete option values, in both branches. -/
theorem iris_dateobs_spec_witness :
    optionally_set_iris_dateobs [] oIrisGood "f"
      = (hset [] "DATE-OBS"
          (.str ⟨irisFmtL "2023".data "1".data "2".data⟩),
        if oIrisGood.verbose then
          [Msg.irisInitial "f" (hget [] "DATE-OBS"),
           Msg.irisAdjusted "f" ⟨irisFmtL "2023".data "1".data "2".data⟩]
        else [])
    ∧ optionally_set_iris_dateobs [] oIrisBad "f"
        = ([], [Msg.notYyyyMmDd "2023/01/02"]) :=
  ⟨iris_dateobs_spec.1 [] oIrisGood "f" "2023-1-2"
      ("2023".data, "1".data, "2".data) rfl (by decide),
   iris_dateobs_spec.2.1 [] oIrisBad "f" "2023/01/02" rfl (by decide)⟩

/-- C7: a calibration-status option value overwrites CALSTAT exactly when
it is one of the five enumerated strings; any other value is rejected
with a diagnostic and the header is left unchanged. -/
theorem set_calstat_spec (h : Header) (o : Options) (arg v : String)
    (hc : o.calstat = some v) :
    (v ∈ (["B", "BD", "BF", "DF", "BDF"] : List String) →
       set_calstat h o arg = (hset h "CALSTAT" (.str v),
         if o.verbose then [Msg.setCalstat arg v] else []))
    ∧ (v ∉ (["B", "BD", "BF", "DF", "BDF"] : List String) →
       set_calstat h o arg = (h, [Msg.calstatInvalid arg])) := by
  constructor <;> intro hv <;> simp [set_calstat, hc, hv]

/-- Witness for C7: "BD" is accepted, the permutation "DB" is rejected. -/
theorem set_calstat_spec_witness :
    set_calstat [] oCalGood "f" = (hset [] "CALSTAT" (.str "BD"),
      if oCalGood.verbose then [Msg.setCalstat "f" "BD"] else [])
    ∧ set_calstat [] oCalBad "f" = ([], [Msg.calstatInvalid "f"]) :=
  ⟨(set_calstat_spec [] oCalGood "f" "BD" rfl).1 (by decide),
   (set_calstat_spec [] oCalBad "f" "DB" rfl).2 (by decide)⟩

/-- C1: with the adjust-time flag set and a full timestamp extracted, the
adjusted instant is the extracted one plus the timezone offset in hours,
the exposure is the option value if non-zero, else the header's EXPTIME,
else 0, the midpoint is the adjusted instant plus half the exposure in
seconds, DATE-OBS receives the midpoint when the use-midpoint flag is set
and the adjusted instant otherwise, and MIDPOINT and the Julian Date of
the midpoint are always written, all in exact (sub-second) arithmetic. -/
theorem set_times_adjust_spec (h hE : Header) (o : Options) (arg s : String)
    (ms0 : List Msg) (t e : ℚ)
    (hadj : o.adjust_time = true)
    (hex : extract_full_dateobs h arg = some (some (.str s), hE, ms0))
    (hpt : parseIsot s = some t)
    (hexp : resolve_exp_time hE o = some e) :
    ∃ h' m, set_times h o arg = some (h', m)
      ∧ hget h' "DATE-OBS" = some (.str (if o.use_midpoint_for_dateobs
            then fmtIsot (midpoint_t o t e) else fmtIsot (adjusted_t o t)))
      ∧ hget h' "MIDPOINT" = some (.str (fmtIsot (midpoint_t o t e)))
      ∧ hget h' "JD" = some (.num (jdOf (midpoint_t o t e)))
      ∧ adjusted_t o t = t + o.tz_offset * 60 * 60
      ∧ midpoint_t o t e = adjusted_t o t + e / 2
      ∧ jdOf (midpoint_t o t e) = midpoint_t o t e / 86400 := by
  unfold set_times
  rw [hadj]
  simp only [Bool.not_true, Bool.false_eq_true, if_false, hex, hpt, hexp]
  by_cases hm : o.use_midpoint_for_dateobs
  · simp only [hm, if_true]
    refine ⟨_, _, rfl, ?_, ?_, ?_, adjusted_t_eq o t, midpoint_t_eq o t e, jdOf_eq _⟩
    · rw [hget_hset_ne _ _ _ _ (by decide), hget_hset_ne _ _ _ _ (by decide),
        hget_hset_self]
    · rw [hget_hset_ne _ _ _ _ (by decide), hget_hset_self]
    · rw [hget_hset_self]
  · simp only [hm, if_false, Bool.false_eq_true]
    refine ⟨_, _, rfl, ?_, ?_, ?_, adjusted_t_eq o t, midpoint_t_eq o t e, jdOf_eq _⟩
    · rw [hget_hset_ne _ _ _ _ (by decide), hget_hset_ne _ _ _ _ (by decide),
        hget_hset_self]
    · rw [hget_hset_ne _ _ _ _ (by decide), hget_hset_self]
    · rw [hget_hset_self]

def hW1 : Header :=
  [("DATE-OBS", Value.str "2023-01-02T03:04:05"), ("EXPTIME", Value.num 60)]

def oW1 : Options :=
  { oNone with
    adjust_time := true
    tz_offset := 1
    use_midpoint_for_dateobs := true }

/-- Witness for C1 at a concrete header, options and timestamp. -/
theorem set_times_adjust_spec_witness :
    ∃ h' m, set_times hW1 oW1 "f" = some (h', m)
      ∧ hget h' "DATE-OBS" = some (.str (if oW1.use_midpoint_for_dateobs
            then fmtIsot (midpoint_t oW1 212539388645 60)
            else fmtIsot (adjusted_t oW1 212539388645)))
      ∧ hget h' "MIDPOINT"
          = some (.str (fmtIsot (midpoint_t oW1 212539388645 60)))
      ∧ hget h' "JD" = some (.num (jdOf (midpoint_t oW1 212539388645 60)))
      ∧ adjusted_t oW1 212539388645 = 212539388645 + oW1.tz_offset * 60 * 60
      ∧ midpoint_t oW1 212539388645 60
          = adjusted_t oW1 212539388645 + 60 / 2
      ∧ jdOf (midpoint_t oW1 212539388645 60)
          = midpoint_t oW1 212539388645 60 / 86400 :=
  set_times_adjust_spec hW1 hW1 oW1 "f" "2023-01-02T03:04:05" []
    212539388645 60 rfl (by decide) (by decide) (by decide)

/-- C2: during time adjustment, a UT-START card together with a
slash-separated DATE-OBS is consolidated into a full ISO timestamp with
UT-START deleted; without UT-START an ISO DATE-OBS is used as-is; and a
header with no DATE-OBS at all makes the whole step emit a diagnostic and
change nothing. -/
theorem extract_dateobs_spec :
    (∀ (h : Header) (arg ut dob : String) (dd mm yyyy : List Char),
       hget h "UT-START" = some (.str ut) →
       hget h "DATE-OBS" = some (.str dob) →
       pySplit '/' dob.data = [dd, mm, yyyy] →
       extract_full_dateobs h arg
         = some (some (.str ⟨yyyy ++ '-' :: (mm ++ '-' :: (dd ++ 'T' :: ut.data))⟩),
             hdel h "UT-START", []))
  ∧ (∀ (h : Header) (arg s : String) (t : ℚ),
       hget h "UT-START" = none → hget h "DATE-OBS" = some (.str s) →
       parseIsot s = some t →
       extract_full_dateobs h arg = some (some (.str s), h, []))
  ∧ (∀ (h : Header) (o : Options) (arg : String),
       o.adjust_time = true → hget h "DATE-OBS" = none →
       set_times h o arg = some (h, [Msg.noDateObs arg])) := by
  refine ⟨?_, ?_, ?_⟩
  · intro h arg ut dob dd mm yyyy hut hdo hsp
    simp [extract_full_dateobs, hmem, hut, hdo, hsp]
  · intro h arg s t hut hdo hpt
    simp [extract_full_dateobs, hmem, hut, hdo]
  · intro h o arg hadj hdo
    unfold set_times
    rw [hadj]
    simp [extract_full_dateobs, hmem, hdo]

def hC2a : Header :=
  [("UT-START", Value.str "03:04:05"), ("DATE-OBS", Value.str "02/01/2023")]

def hC2b : Header := [("DATE-OBS", Value.str "2023-01-02T03:04:05")]

def hC2c : Header := [("OBJECT", Value.str "M31")]

def oC2 : Options := { oNone with adjust_time := true }

/-- Witness for C2 at concrete headers, one per branch. -/
theorem extract_dateobs_spec_witness :
    extract_full_dateobs hC2a "f"
      = some (some (.str "2023-01-02T03:04:05"),
          [("DATE-OBS", Value.str "02/01/2023")], [])
    ∧ extract_full_dateobs hC2b "f"
        = some (some (.str "2023-01-02T03:04:05"), hC2b, [])
    ∧ set_times hC2c oC2 "f" = some (hC2c, [Msg.noDateObs "f"]) :=
  ⟨extract_dateobs_spec.1 hC2a "f" "03:04:05" "02/01/2023"
      "02".data "01".data "2023".data (by decide) (by decide) (by decide),
   extract_dateobs_spec.2.1 hC2b "f" "2023-01-02T03:04:05" 212539388645
      (by decide) (by decide) (by decide),
   extract_dateobs_spec.2.2 hC2c oC2 "f" rfl (by decide)⟩

def hTwice : Header := [("DATE-OBS", Value.str "2023-01-02T03:04:05")]

def oTwice : Options :=
  { oNone with
    adjust_time := true
    tz_offset := 1 }

/-- C3 counterexample: a second pass with the same options shifts the
already-adjusted DATE-OBS by the timezone offset again, so the second
pass does not yield the same final header state outside MIDPOINT and JD:
DATE-OBS itself differs between the two passes. -/
theorem apply_twice_dateobs_differs :
    (applyEdits hTwice oTwice "f").map (fun p => hget p.1 "DATE-OBS")
      = some (some (.str "2023-01-02T04:04:05.000"))
    ∧ ((applyEdits hTwice oTwice "f").bind (fun p => applyEdits p.1 oTwice "f")).map
        (fun p => hget p.1 "DATE-OBS")
      = some (some (.str "2023-01-02T05:04:05.000"))
    ∧ some (some (Value.str "2023-01-02T04:04:05.000"))
      ≠ some (some (Value.str "2023-01-02T05:04:05.000")) :=
  ⟨by decide, by decide, by decide⟩

/-- Witness for C3 at a concrete header and options processed twice. -/
theorem apply_twice_agree_outside_time_fields_witness :
    (∀ k, k ≠ "DATE-OBS" → k ≠ "MIDPOINT" → k ≠ "JD" →
        hget [("FILTER", Value.str "R")] k = hget [("FILTER", Value.str "R")] k)
    ∧ (∃ ht mt, set_times
          (optionally_set_iris_dateobs [("FILTER", Value.str "R")] oFil "f").1
          oFil "f" = some (ht, mt)
        ∧ hget [("FILTER", Value.str "R")] "DATE-OBS" = hget ht "DATE-OBS"
        ∧ hget [("FILTER", Value.str "R")] "MIDPOINT" = hget ht "MIDPOINT"
        ∧ hget [("FILTER", Value.str "R")] "JD" = hget ht "JD") :=
  apply_twice_agree_outside_time_fields [] oFil "f" [("FILTER", Value.str "R")]
    [Msg.filterChanged "f" none "R"] [("FILTER", Value.str "R")] []
    (by decide) (by decide)

/-- Prefix decomposition of `runSteps`. -/
theorem runSteps_append (pre rest : List EditStep) (h : Header) (ms : List Msg) :
    runSteps (pre ++ rest) h ms
      = match runSteps pre h ms with
        | .ok h1 ms1 => runSteps rest h1 ms1
        | .keyErr e h1 ms1 => .keyErr e h1 ms1 := by
  induction pre generalizing h ms with
  | nil => rfl
  | cons s t ih =>
    simp only [List.cons_append, runSteps]
    cases s h with
    | ok h1 ms1 => exact ih h1 (ms ++ ms1)
    | keyErr e h1 ms1 => rfl

/-- C8 counterexample: after a step raises KeyError, the remaining edit
steps of the current file are not attempted: the write of keyword B
placed after the failing lookup never happens, though the earlier write
of A is still flushed. -/
theorem keyerror_skips_remaining_steps :
    processFile [writeStep "A" (.str "x"), readStep "MISSING",
        writeStep "B" (.str "y")] []
      = ([("A", Value.str "x")], [Msg.err "Keyword MISSING not found."])
    ∧ hget ([("A", Value.str "x")] : Header) "B" = none :=
  ⟨by decide, by decide⟩

/-- C8 (amended): an edit step that raises a field-not-found KeyError is
caught by the top-level handler of `main` and logged, and the header
mutations made before the failure are still flushed, but the remaining
edit steps of the current file are skipped rather than attempted. -/
theorem keyerror_caught_logged_flushed (pre suf : List EditStep) (s : EditStep)
    (h h1 h2 : Header) (ms1 ms2 : List Msg) (e : String)
    (hpre : runSteps pre h [] = .ok h1 ms1)
    (hs : s h1 = .keyErr e h2 ms2) :
    processFile (pre ++ s :: suf) h = (h2, (ms1 ++ ms2) ++ [Msg.err e]) := by
  unfold processFile
  rw [runSteps_append, hpre]
  simp only [runSteps, hs]

/-- Witness for C8 at a concrete step list whose middle step raises. -/
theorem keyerror_caught_logged_flushed_witness :
    processFile [writeStep "A" (.str "x"), readStep "MISSING",
        writeStep "B" (.str "y")] []
      = ([("A", Value.str "x")], [Msg.err "Keyword MISSING not found."]) := by
  have hk := keyerror_caught_logged_flushed [writeStep "A" (.str "x")]
    [writeStep "B" (.str "y")] (readStep "MISSING") [] [("A", Value.str "x")]
    [("A", Value.str "x")] [] [] "Keyword MISSING not found."
    (by decide) (by decide)
  exact hk.trans (by decide)

/-- `parseYMD` succeeds on every string of shape four digits, dash, one
or two digits, dash, one or two digits, with no constraint on the
numeric values of the groups. -/
theorem parseYMD_shape (y m d : List Char)
    (hy : ∀ c ∈ y, c.isDigit = true) (hm : ∀ c ∈ m, c.isDigit = true)
    (hd : ∀ c ∈ d, c.isDigit = true)
    (hly : y.length = 4) (hlm : 1 ≤ m.length ∧ m.length ≤ 2)
    (hld : 1 ≤ d.length ∧ d.length ≤ 2) :
    parseYMD (y ++ '-' :: (m ++ '-' :: d)) = some (y, m, d) := by
  have hds : dropSpaces (y ++ '-' :: (m ++ '-' :: d))
      = y ++ '-' :: (m ++ '-' :: d) := by
    apply dropSpaces_of_head
    intro c hc
    cases y with
    | nil => simp at hly
    | cons c0 t =>
      simp only [List.cons_append, List.head?_cons, Option.mem_def,
        Option.some.injEq] at hc
      subst hc
      exact digit_not_space c0 (hy c0 (List.mem_cons_self c0 t))
  have h1 : grabDigits (y ++ '-' :: (m ++ '-' :: d))
      = (y, '-' :: (m ++ '-' :: d)) := by
    apply grabDigits_append y _ hy
    intro c hc
    simp only [List.head?_cons, Option.mem_def, Option.some.injEq] at hc
    subst hc
    decide
  have h2 : grabDigits (m ++ '-' :: d) = (m, '-' :: d) := by
    apply grabDigits_append m _ hm
    intro c hc
    simp only [List.head?_cons, Option.mem_def, Option.some.injEq] at hc
    subst hc
    decide
  have h3 : grabDigits d = (d, []) := by
    have := grabDigits_append d [] hd (by simp)
    simpa using this
  simp [parseYMD, hds, h1, h2, h3, hly, hlm, hld]

/-- C9: legacy-date normalization performs no calendar validation: every
option value of shape four digits, dash, one or two digits, dash, one or
two digits makes `optionally_set_iris_dateobs` overwrite DATE-OBS with
the reformatted `DD/MM/YYYY` value, with no bound on the numeric month
or day. -/
theorem iris_no_calendar_validation (h : Header) (o : Options) (arg : String)
    (y m d : List Char)
    (hy : ∀ c ∈ y, c.isDigit = true) (hm : ∀ c ∈ m, c.isDigit = true)
    (hd : ∀ c ∈ d, c.isDigit = true)
    (hly : y.length = 4) (hlm : 1 ≤ m.length ∧ m.length ≤ 2)
    (hld : 1 ≤ d.length ∧ d.length ≤ 2)
    (ho : o.iris_dateobs = some ⟨y ++ '-' :: (m ++ '-' :: d)⟩) :
    (optionally_set_iris_dateobs h o arg).1
      = hset h "DATE-OBS" (.str ⟨irisFmtL y m d⟩) := by
  have hp : parseYMD (String.mk (y ++ '-' :: (m ++ '-' :: d))).data
      = some (y, m, d) := parseYMD_shape y m d hy hm hd hly hlm hld
  simp [optionally_set_iris_dateobs, ho, hp]

/-- Witness for C9 at the out-of-range date 2023-13-40. -/
theorem iris_no_calendar_validation_witness :
    (optionally_set_iris_dateobs [] oIris13 "f").1
      = hset [] "DATE-OBS" (.str "40/13/2023") := by
  have hi := iris_no_calendar_validation [] oIris13 "f"
    "2023".data "13".data "40".data (by decide) (by decide) (by decide)
    (by decide) (by decide) (by decide) (by decide)
  exact hi.trans (by decide)

/-- `parseHMSL` succeeds on every string of three nonempty digit groups
separated by colons, with no constraint on the numeric values or digit
counts of the groups, in both sign modes. -/
theorem parseHMSL_shape (sgn : Bool) (a b c : List Char)
    (ha0 : a ≠ []) (ha : ∀ ch ∈ a, ch.isDigit = true)
    (hb0 : b ≠ []) (hb : ∀ ch ∈ b, ch.isDigit = true)
    (hc0 : c ≠ []) (hc : ∀ ch ∈ c, ch.isDigit = true) :
    parseHMSL sgn (a ++ ':' :: (b ++ ':' :: c))
      = some (a ++ ' ' :: (b ++ ' ' :: c)) := by
  obtain ⟨a0, at0, rfl⟩ : ∃ x t, a = x :: t := by
    cases a with
    | nil => exact absurd rfl ha0
    | cons x t => exact ⟨x, t, rfl⟩
  have ha00 : a0.isDigit = true := ha a0 (List.mem_cons_self a0 at0)
  have hds : dropSpaces (a0 :: (at0 ++ ':' :: (b ++ ':' :: c)))
      = a0 :: (at0 ++ ':' :: (b ++ ':' :: c)) := by
    apply dropSpaces_of_head
    intro ch hch
    simp only [List.head?_cons, Option.mem_def, Option.some.injEq] at hch
    subst hch
    exact digit_not_space a0 ha00
  have hsg : (a0 = '-' || a0 = '+') = false := by
    have h1 : a0 ≠ '-' := digit_ne a0 ha00 '-' (by decide)
    have h2 : a0 ≠ '+' := digit_ne a0 ha00 '+' (by decide)
    simp [h1, h2]
  have h1 : grabDigits (a0 :: (at0 ++ ':' :: (b ++ ':' :: c)))
      = (a0 :: at0, ':' :: (b ++ ':' :: c)) := by
    have := grabDigits_append (a0 :: at0) (':' :: (b ++ ':' :: c)) ha
      (by intro ch hch
          simp only [List.head?_cons, Option.mem_def, Option.some.injEq] at hch
          subst hch
          decide)
    simpa using this
  have h2 : grabDigits (b ++ ':' :: c) = (b, ':' :: c) := by
    apply grabDigits_append _ _ hb
    intro ch hch
    simp only [List.head?_cons, Option.mem_def, Option.some.injEq] at hch
    subst hch
    decide
  have h3 : grabDigits c = (c, []) := by
    have := grabDigits_append c [] hc (by simp)
    simpa using this
  cases sgn with
  | false =>
    simp [parseHMSL, hds, h1, h2, h3, hb0, hc0]
  | true =>
    simp [parseHMSL, hds, h1, h2, h3, hb0, hc0, hsg]

/-- C10: the RA and Dec validation bounds neither the numeric range nor
the digit count of any field: every input of three colon-separated digit
groups is accepted by `get_hd_m_s_str` and written by `set_ra`, even
when the minutes or seconds group is 60 or more. -/
theorem hms_no_range_validation (h : Header) (o : Options) (arg : String)
    (a b c : List Char)
    (ha0 : a ≠ []) (ha : ∀ ch ∈ a, ch.isDigit = true)
    (hb0 : b ≠ []) (hb : ∀ ch ∈ b, ch.isDigit = true)
    (hc0 : c ≠ []) (hc : ∀ ch ∈ c, ch.isDigit = true)
    (ho : o.ra = some ⟨a ++ ':' :: (b ++ ':' :: c)⟩) :
    get_hd_m_s_str ⟨a ++ ':' :: (b ++ ':' :: c)⟩ false
        = some ⟨a ++ ' ' :: (b ++ ' ' :: c)⟩
      ∧ (set_ra h o arg).1
          = hset h "RA" (.str ⟨a ++ ' ' :: (b ++ ' ' :: c)⟩) := by
  have hp := parseHMSL_shape false a b c ha0 ha hb0 hb hc0 hc
  constructor
  · simp [get_hd_m_s_str, hp]
  · simp [set_ra, ho, get_hd_m_s_str, hp]

/-- Witness for C10 at the out-of-range input 12:99:99. -/
theorem hms_no_range_validation_witness :
    get_hd_m_s_str "12:99:99" false = some "12 99 99"
      ∧ (set_ra [] oRA99 "f").1 = hset [] "RA" (.str "12 99 99") := by
  have hw := hms_no_range_validation [] oRA99 "f"
    "12".data "99".data "99".data (by decide) (by decide) (by decide)
    (by decide) (by decide) (by decide) (by decide)
  constructor
  · have e : ("12:99:99" : String)
        = ⟨"12".data ++ ':' :: ("99".data ++ ':' :: "99".data)⟩ := by decide
    rw [e, hw.1]
    decide
  · rw [hw.2]
    decide
